import Mathlib

/-!
Verification development for the core of a 2D rigid-body physics engine
(Box2D-style).  The embedding is shallow: C floats are modelled as exact
rationals, C structs as Lean structures, array/pointer state as explicit
lists threaded through the functions.  Functions are translated from
`src/src/weld_joint.c`, `src/src/physics_world.h` and
`src/include/box2d/types.h`; parts of the engine whose sources are not in
the repository snapshot (GJK distance, shape cast, constraint graph, event
buffering) are modelled from the specification and marked as such in their
doc comments.
-/

namespace Box2d

/-- Embedding of b2Vec2 (2D vector); float components become rationals. -/
structure b2Vec2 where
  x : ℚ
  y : ℚ
deriving DecidableEq

/-- Embedding of b2Vec2_zero. -/
def b2Vec2_zero : b2Vec2 := ⟨0, 0⟩

/-- Embedding of b2Add. -/
def b2Add (a b : b2Vec2) : b2Vec2 := ⟨a.x + b.x, a.y + b.y⟩

/-- Embedding of b2Sub. -/
def b2Sub (a b : b2Vec2) : b2Vec2 := ⟨a.x - b.x, a.y - b.y⟩

/-- Embedding of b2Neg. -/
def b2Neg (a : b2Vec2) : b2Vec2 := ⟨-a.x, -a.y⟩

/-- Embedding of b2MulSV (scalar times vector). -/
def b2MulSV (s : ℚ) (v : b2Vec2) : b2Vec2 := ⟨s * v.x, s * v.y⟩

/-- Embedding of b2MulAdd: a + s * b. -/
def b2MulAdd (a : b2Vec2) (s : ℚ) (b : b2Vec2) : b2Vec2 := ⟨a.x + s * b.x, a.y + s * b.y⟩

/-- Embedding of b2MulSub: a - s * b. -/
def b2MulSub (a : b2Vec2) (s : ℚ) (b : b2Vec2) : b2Vec2 := ⟨a.x - s * b.x, a.y - s * b.y⟩

/-- Embedding of b2Dot. -/
def b2Dot (a b : b2Vec2) : ℚ := a.x * b.x + a.y * b.y

/-- Embedding of b2Cross (2D scalar cross product). -/
def b2Cross (a b : b2Vec2) : ℚ := a.x * b.y - a.y * b.x

/-- Embedding of b2CrossSV (scalar cross vector). -/
def b2CrossSV (s : ℚ) (v : b2Vec2) : b2Vec2 := ⟨-s * v.y, s * v.x⟩

/-- Embedding of b2LengthSquared. -/
def b2LengthSquared (v : b2Vec2) : ℚ := v.x * v.x + v.y * v.y

/-- Embedding of b2Rot (rotation stored as cosine/sine). -/
structure b2Rot where
  c : ℚ
  s : ℚ
deriving DecidableEq

/-- Embedding of b2Rot_identity. -/
def b2Rot_identity : b2Rot := ⟨1, 0⟩

/-- Embedding of b2MulRot: q * r. -/
def b2MulRot (q r : b2Rot) : b2Rot := ⟨q.c * r.c - q.s * r.s, q.s * r.c + q.c * r.s⟩

/-- Embedding of b2InvMulRot: qᵀ * r. -/
def b2InvMulRot (q r : b2Rot) : b2Rot := ⟨q.c * r.c + q.s * r.s, q.c * r.s - q.s * r.c⟩

/-- Embedding of b2RotateVector. -/
def b2RotateVector (q : b2Rot) (v : b2Vec2) : b2Vec2 :=
  ⟨q.c * v.x - q.s * v.y, q.s * v.x + q.c * v.y⟩

/-- Embedding of b2InvRotateVector. -/
def b2InvRotateVector (q : b2Rot) (v : b2Vec2) : b2Vec2 :=
  ⟨q.c * v.x + q.s * v.y, -q.s * v.x + q.c * v.y⟩

/-- Embedding of b2Transform (rotation plus translation). -/
structure b2Transform where
  q : b2Rot
  p : b2Vec2
deriving DecidableEq

/-- Embedding of b2TransformPoint. -/
def b2TransformPoint (t : b2Transform) (v : b2Vec2) : b2Vec2 :=
  b2Add (b2RotateVector t.q v) t.p

/-- Embedding of b2Mat22 (column-major 2x2 matrix). -/
structure b2Mat22 where
  cx : b2Vec2
  cy : b2Vec2
deriving DecidableEq

/-- Modelled from the spec: the 2x2 linear solve used by the weld joint's
linear block (math helper not in src).  Exact-rational rendering of the float
routine: a zero determinant yields the zero vector. -/
def b2Solve22 (A : b2Mat22) (b : b2Vec2) : b2Vec2 :=
  if A.cx.x * A.cy.y - A.cy.x * A.cx.y = 0 then b2Vec2_zero
  else
    ⟨(1 / (A.cx.x * A.cy.y - A.cy.x * A.cx.y)) * (A.cy.y * b.x - A.cy.x * b.y),
     (1 / (A.cx.x * A.cy.y - A.cy.x * A.cx.y)) * (A.cx.x * b.y - A.cx.y * b.x)⟩

/-- Embedding of the B2_PI float constant as an exact rational. -/
def b2_pi : ℚ := 3.14159265359

/-- Embedding of b2Softness (soft-constraint parameters). -/
structure b2Softness where
  biasRate : ℚ
  massScale : ℚ
  impulseScale : ℚ
deriving DecidableEq

/-- Modelled from the spec: soft-constraint parameters derived from hertz and
damping ratio by the implicit-integration-of-spring formulation (§4.6 step 2;
the b2MakeSoft helper is not in src). -/
def b2MakeSoft (hertz zeta h : ℚ) : b2Softness :=
  if hertz = 0 then ⟨0, 1, 0⟩
  else
    ⟨(2 * b2_pi * hertz) / (2 * zeta + h * (2 * b2_pi * hertz)),
     (h * (2 * b2_pi * hertz) * (2 * zeta + h * (2 * b2_pi * hertz)))
       * (1 / (1 + h * (2 * b2_pi * hertz) * (2 * zeta + h * (2 * b2_pi * hertz)))),
     1 / (1 + h * (2 * b2_pi * hertz) * (2 * zeta + h * (2 * b2_pi * hertz)))⟩

/-! ## Solver set indices (src/src/physics_world.h, enum b2SetType) -/

/-- Embedding of b2SetType.b2_staticSet. -/
def b2_staticSet : Nat := 0

/-- Embedding of b2SetType.b2_disabledSet. -/
def b2_disabledSet : Nat := 1

/-- Embedding of b2SetType.b2_awakeSet. -/
def b2_awakeSet : Nat := 2

/-- Embedding of b2SetType.b2_firstSleepingSet. -/
def b2_firstSleepingSet : Nat := 3

/-! ## Weld joint data (src/src/weld_joint.c) -/

/-- Embedding of the b2WeldJoint struct.  The cached solver indices indexA and
indexB are ints with the B2_NULL_INDEX sentinel in C; the sentinel is modelled
as none. -/
structure b2WeldJoint where
  linearHertz : ℚ
  angularHertz : ℚ
  linearDampingRatio : ℚ
  angularDampingRatio : ℚ
  linearSpring : b2Softness
  angularSpring : b2Softness
  frameA : b2Transform
  frameB : b2Transform
  deltaCenter : b2Vec2
  linearImpulse : b2Vec2
  angularImpulse : ℚ
  axialMass : ℚ
  indexA : Option Nat
  indexB : Option Nat
deriving DecidableEq

/-- Embedding of the b2JointSim fields read and written by the weld joint
code. -/
structure b2JointSim where
  localFrameA : b2Transform
  localFrameB : b2Transform
  constraintSoftness : b2Softness
  invMassA : ℚ
  invMassB : ℚ
  invIA : ℚ
  invIB : ℚ
  weldJoint : b2WeldJoint
deriving DecidableEq

/-- Embedding of the b2BodySim fields read by b2PrepareWeldJoint. -/
structure b2BodySim where
  transform : b2Transform
  center : b2Vec2
  localCenter : b2Vec2
  invMass : ℚ
  invInertia : ℚ
deriving DecidableEq

/-- Embedding of b2BodyState (velocity state plus per-step position deltas). -/
structure b2BodyState where
  linearVelocity : b2Vec2
  angularVelocity : ℚ
  deltaPosition : b2Vec2
  deltaRotation : b2Rot
deriving DecidableEq

/-- Embedding of b2_identityBodyState. -/
def b2_identityBodyState : b2BodyState := ⟨b2Vec2_zero, 0, b2Vec2_zero, b2Rot_identity⟩

/-- Embedding of the b2StepContext fields read by the weld joint code. -/
structure b2StepContext where
  h : ℚ
  inv_h : ℚ
  enableWarmStarting : Bool
deriving DecidableEq

/-- The states array of the step context together with the function-local
dummy body state the weld solver substitutes for non-awake bodies.  The dummy
is threaded explicitly so reads and writes through it behave exactly like the
C pointer aliasing. -/
structure b2SolverStates where
  states : List b2BodyState
  dummyState : b2BodyState
deriving DecidableEq

/-- Reading context->states + index, or the local dummy when the cached index
is B2_NULL_INDEX (none). -/
def b2GetState (env : b2SolverStates) (idx : Option Nat) : b2BodyState :=
  match idx with
  | none => env.dummyState
  | some i => env.states.getD i b2_identityBodyState

/-- Writing through the same pointer. -/
def b2SetState (env : b2SolverStates) (idx : Option Nat) (s : b2BodyState) : b2SolverStates :=
  match idx with
  | none => { env with dummyState := s }
  | some i => { env with states := env.states.set i s }

/-! ## Weld joint public setters (weld_joint.c lines 14-58)

Each setter asserts `b2IsValidFloat(v) && v >= 0.0f` with B2_ASSERT and then
stores the value.  B2_ASSERT is compiled out of release builds (the spec's
§4.6: assertions guard invariants in debug builds only), so the embedding
models the release semantics: the store always happens.  The assert condition
is modelled separately; NaN and infinity have no rational counterpart, so over
ℚ the b2IsValidFloat conjunct is always true and only the sign check
remains. -/

/-- Assert condition of the four weld joint setters, over the rational
embedding of float inputs. -/
def b2WeldJointSetterAssertOk (v : ℚ) : Prop := 0 ≤ v

instance (v : ℚ) : Decidable (b2WeldJointSetterAssertOk v) := by
  unfold b2WeldJointSetterAssertOk; infer_instance

/-- Embedding of b2WeldJoint_SetLinearHertz (the id-to-sim lookup is resolved
to the joint sim argument). -/
def b2WeldJoint_SetLinearHertz (joint : b2JointSim) (hertz : ℚ) : b2JointSim :=
  { joint with weldJoint := { joint.weldJoint with linearHertz := hertz } }

/-- Embedding of b2WeldJoint_SetLinearDampingRatio. -/
def b2WeldJoint_SetLinearDampingRatio (joint : b2JointSim) (dampingRatio : ℚ) : b2JointSim :=
  { joint with weldJoint := { joint.weldJoint with linearDampingRatio := dampingRatio } }

/-- Embedding of b2WeldJoint_SetAngularHertz. -/
def b2WeldJoint_SetAngularHertz (joint : b2JointSim) (hertz : ℚ) : b2JointSim :=
  { joint with weldJoint := { joint.weldJoint with angularHertz := hertz } }

/-- Embedding of b2WeldJoint_SetAngularDampingRatio. -/
def b2WeldJoint_SetAngularDampingRatio (joint : b2JointSim) (dampingRatio : ℚ) : b2JointSim :=
  { joint with weldJoint := { joint.weldJoint with angularDampingRatio := dampingRatio } }

/-! ## Weld joint force/torque reporting (weld_joint.c lines 66-75) -/

/-- Embedding of the b2World fields used by the weld joint force and torque
reporting: inv_h remembers the substep rate used for reporting forces and
torques (physics_world.h line 177). -/
structure b2World where
  inv_h : ℚ
deriving DecidableEq

/-- Embedding of b2GetWeldJointForce. -/
def b2GetWeldJointForce (world : b2World) (base : b2JointSim) : b2Vec2 :=
  b2MulSV world.inv_h base.weldJoint.linearImpulse

/-- Embedding of b2GetWeldJointTorque. -/
def b2GetWeldJointTorque (world : b2World) (base : b2JointSim) : ℚ :=
  world.inv_h * base.weldJoint.angularImpulse

/-- Modelled from the spec: the joint event trigger condition
|linearImpulse|·invH > forceThreshold or |angularImpulse|·invH >
torqueThreshold (§4.6 Events; the joint event dispatch code is not in src).
The vector magnitude comparison is expressed with squares so it stays inside
ℚ; for nonnegative invH and threshold it is the same comparison. -/
def b2JointEventCondition (linearImpulse : b2Vec2) (angularImpulse : ℚ)
    (invH forceThreshold torqueThreshold : ℚ) : Prop :=
  forceThreshold ^ 2 < invH ^ 2 * b2LengthSquared linearImpulse
    ∨ torqueThreshold < |angularImpulse| * invH

/-! ## b2PrepareWeldJoint (weld_joint.c lines 91-163) -/

/-- Embedding of b2PrepareWeldJoint.  The world-array lookups that chase the
body ids to their solver sets are resolved into the bodySim, set-index and
local-index arguments; everything after the lookups follows the C body
line by line. -/
def b2PrepareWeldJoint (base : b2JointSim) (bodySimA bodySimB : b2BodySim)
    (setIndexA setIndexB localIndexA localIndexB : Nat)
    (context : b2StepContext) : b2JointSim :=
  { base with
    invMassA := bodySimA.invMass
    invMassB := bodySimB.invMass
    invIA := bodySimA.invInertia
    invIB := bodySimB.invInertia
    weldJoint :=
      { base.weldJoint with
        indexA := if setIndexA = b2_awakeSet then some localIndexA else none
        indexB := if setIndexB = b2_awakeSet then some localIndexB else none
        frameA :=
          ⟨b2MulRot bodySimA.transform.q base.localFrameA.q,
           b2RotateVector bodySimA.transform.q (b2Sub base.localFrameA.p bodySimA.localCenter)⟩
        frameB :=
          ⟨b2MulRot bodySimB.transform.q base.localFrameB.q,
           b2RotateVector bodySimB.transform.q (b2Sub base.localFrameB.p bodySimB.localCenter)⟩
        deltaCenter := b2Sub bodySimB.center bodySimA.center
        axialMass :=
          if 0 < bodySimA.invInertia + bodySimB.invInertia
          then 1 / (bodySimA.invInertia + bodySimB.invInertia) else 0
        linearSpring :=
          if base.weldJoint.linearHertz = 0 then base.constraintSoftness
          else b2MakeSoft base.weldJoint.linearHertz base.weldJoint.linearDampingRatio context.h
        angularSpring :=
          if base.weldJoint.angularHertz = 0 then base.constraintSoftness
          else b2MakeSoft base.weldJoint.angularHertz base.weldJoint.angularDampingRatio context.h
        linearImpulse :=
          if context.enableWarmStarting then base.weldJoint.linearImpulse else b2Vec2_zero
        angularImpulse :=
          if context.enableWarmStarting then base.weldJoint.angularImpulse else 0 } }

/-! ## b2WarmStartWeldJoint (weld_joint.c lines 165-188) -/

/-- Embedding of b2WarmStartWeldJoint.  The C function creates a local dummy
body state for non-awake bodies; the b2SolverStates record threads it so the
write order (body A first, then body B) and any aliasing match the C code.
Only the states list survives the call, like the C dummy going out of
scope. -/
def b2WarmStartWeldJoint (base : b2JointSim) (states : List b2BodyState) : List b2BodyState :=
  let env : b2SolverStates := ⟨states, b2_identityBodyState⟩
  let joint := base.weldJoint
  let stateA := b2GetState env joint.indexA
  let stateB0 := b2GetState env joint.indexB
  let rA := b2RotateVector stateA.deltaRotation joint.frameA.p
  let rB := b2RotateVector stateB0.deltaRotation joint.frameB.p
  let env1 := b2SetState env joint.indexA
    { stateA with
      linearVelocity := b2MulSub stateA.linearVelocity base.invMassA joint.linearImpulse
      angularVelocity := stateA.angularVelocity
        - base.invIA * (b2Cross rA joint.linearImpulse + joint.angularImpulse) }
  let stateB := b2GetState env1 joint.indexB
  let env2 := b2SetState env1 joint.indexB
    { stateB with
      linearVelocity := b2MulAdd stateB.linearVelocity base.invMassB joint.linearImpulse
      angularVelocity := stateB.angularVelocity
        + base.invIB * (b2Cross rB joint.linearImpulse + joint.angularImpulse) }
  env2.states

/-! ## b2SolveWeldJoint (weld_joint.c lines 190-283) -/

/-- Embedding of b2SolveWeldJoint.  b2Rot_GetAngle calls the C library's
atan2f, a transcendental with no rational counterpart, so the embedding takes
the atan2 primitive as a parameter; every theorem below holds for any
interpretation of it.  Returns the updated joint sim (accumulated impulses)
and the updated states list. -/
def b2SolveWeldJoint (atan2 : ℚ → ℚ → ℚ) (base : b2JointSim)
    (states : List b2BodyState) (useBias : Bool) : b2JointSim × List b2BodyState :=
  let env : b2SolverStates := ⟨states, b2_identityBodyState⟩
  let joint := base.weldJoint
  let stateA := b2GetState env joint.indexA
  let stateB := b2GetState env joint.indexB
  let vA := stateA.linearVelocity
  let wA := stateA.angularVelocity
  let vB := stateB.linearVelocity
  let wB := stateB.angularVelocity
  -- angular constraint
  let relQ := b2InvMulRot (b2MulRot stateA.deltaRotation joint.frameA.q)
    (b2MulRot stateB.deltaRotation joint.frameB.q)
  let jointAngle := atan2 relQ.s relQ.c
  let angBias := if useBias || 0 < joint.angularHertz
    then joint.angularSpring.biasRate * jointAngle else 0
  let angMassScale := if useBias || 0 < joint.angularHertz
    then joint.angularSpring.massScale else 1
  let angImpulseScale := if useBias || 0 < joint.angularHertz
    then joint.angularSpring.impulseScale else 0
  let angImpulse := -angMassScale * joint.axialMass * ((wB - wA) + angBias)
    - angImpulseScale * joint.angularImpulse
  let wA1 := wA - base.invIA * angImpulse
  let wB1 := wB + base.invIB * angImpulse
  -- linear constraint
  let rA := b2RotateVector stateA.deltaRotation joint.frameA.p
  let rB := b2RotateVector stateB.deltaRotation joint.frameB.p
  let linC := b2Add (b2Add (b2Sub stateB.deltaPosition stateA.deltaPosition) (b2Sub rB rA))
    joint.deltaCenter
  let linBias := if useBias || 0 < joint.linearHertz
    then b2MulSV joint.linearSpring.biasRate linC else b2Vec2_zero
  let linMassScale := if useBias || 0 < joint.linearHertz
    then joint.linearSpring.massScale else 1
  let linImpulseScale := if useBias || 0 < joint.linearHertz
    then joint.linearSpring.impulseScale else 0
  let Cdot := b2Sub (b2Add vB (b2CrossSV wB1 rB)) (b2Add vA (b2CrossSV wA1 rA))
  let K : b2Mat22 :=
    ⟨⟨base.invMassA + base.invMassB + rA.y * rA.y * base.invIA + rB.y * rB.y * base.invIB,
      -rA.y * rA.x * base.invIA - rB.y * rB.x * base.invIB⟩,
     ⟨-rA.y * rA.x * base.invIA - rB.y * rB.x * base.invIB,
      base.invMassA + base.invMassB + rA.x * rA.x * base.invIA + rB.x * rB.x * base.invIB⟩⟩
  let bvec := b2Solve22 K (b2Add Cdot linBias)
  let linImpulse : b2Vec2 :=
    ⟨-linMassScale * bvec.x - linImpulseScale * joint.linearImpulse.x,
     -linMassScale * bvec.y - linImpulseScale * joint.linearImpulse.y⟩
  let vA1 := b2MulSub vA base.invMassA linImpulse
  let wA2 := wA1 - base.invIA * b2Cross rA linImpulse
  let vB1 := b2MulAdd vB base.invMassB linImpulse
  let wB2 := wB1 + base.invIB * b2Cross rB linImpulse
  let env1 := b2SetState env joint.indexA
    { b2GetState env joint.indexA with linearVelocity := vA1, angularVelocity := wA2 }
  let env2 := b2SetState env1 joint.indexB
    { b2GetState env1 joint.indexB with linearVelocity := vB1, angularVelocity := wB2 }
  ({ base with
      weldJoint := { joint with
        angularImpulse := joint.angularImpulse + angImpulse
        linearImpulse := b2Add joint.linearImpulse linImpulse } },
   env2.states)

/-! ## List helper lemmas for the state-array embedding -/

lemma list_set_getD_self {α : Type} (l : List α) (i : Nat) (d : α) :
    l.set i (l.getD i d) = l := by
  by_cases h : i < l.length
  · apply List.ext_getElem?
    intro n
    by_cases hn : i = n
    · subst hn
      rw [List.getElem?_set_self h, List.getD_eq_getElem?_getD,
        List.getElem?_eq_getElem h]
      rfl
    · exact List.getElem?_set_ne hn
  · exact List.set_eq_of_length_le (Nat.le_of_not_lt h)

lemma list_getD_set_ne {α : Type} (l : List α) {i j : Nat} (v d : α) (h : i ≠ j) :
    (l.set i v).getD j d = l.getD j d := by
  rw [List.getD_eq_getElem?_getD, List.getD_eq_getElem?_getD, List.getElem?_set_ne h]

lemma list_getD_set_self {α : Type} (l : List α) {i : Nat} (v d : α) (h : i < l.length) :
    (l.set i v).getD i d = v := by
  rw [List.getD_eq_getElem?_getD, List.getElem?_set_self h]
  rfl

lemma b2SetState_getState (env : b2SolverStates) (idx : Option Nat) :
    b2SetState env idx (b2GetState env idx) = env := by
  cases idx with
  | none => rfl
  | some i =>
      show b2SolverStates.mk (env.states.set i (env.states.getD i b2_identityBodyState)) _ = env
      rw [list_set_getD_self]

lemma b2MulSub_zero (v : b2Vec2) (s : ℚ) : b2MulSub v s b2Vec2_zero = v := by
  simp [b2MulSub, b2Vec2_zero]

lemma b2MulAdd_zero (v : b2Vec2) (s : ℚ) : b2MulAdd v s b2Vec2_zero = v := by
  simp [b2MulAdd, b2Vec2_zero]

lemma b2Cross_zero (v : b2Vec2) : b2Cross v b2Vec2_zero = 0 := by
  simp [b2Cross, b2Vec2_zero]

/-! ## C3: solver set indices -/

/-- C3.  The solver set indices are fixed: the static set has index 0, the
disabled set index 1, the awake set index 2, and the sleeping-island sets
occupy exactly the indices at or above b2_firstSleepingSet = 3, i.e. every
index that is none of the three fixed sets. -/
theorem solver_set_indices_fixed :
    b2_staticSet = 0 ∧ b2_disabledSet = 1 ∧ b2_awakeSet = 2 ∧ b2_firstSleepingSet = 3 ∧
    (∀ i : Nat, b2_firstSleepingSet ≤ i ↔
      (i ≠ b2_staticSet ∧ i ≠ b2_disabledSet ∧ i ≠ b2_awakeSet)) := by
  refine ⟨rfl, rfl, rfl, rfl, fun i => ?_⟩
  unfold b2_firstSleepingSet b2_staticSet b2_disabledSet b2_awakeSet
  omega

/-! ## C2: weld joint setters on invalid input -/

/-- C2 counterexample.  The claim says an invalid (negative) hertz argument is
rejected at entry and the stored parameter is left unchanged; on the release
semantics of the code the B2_ASSERT is a no-op and the store always happens,
so a joint with linearHertz = 0 ends with linearHertz = -1. -/
theorem weld_setter_invalid_input_counterexample :
    ¬ b2WeldJointSetterAssertOk (-1) ∧
    (b2WeldJoint_SetLinearHertz
        ⟨⟨b2Rot_identity, b2Vec2_zero⟩, ⟨b2Rot_identity, b2Vec2_zero⟩, ⟨0, 1, 0⟩, 0, 0, 0, 0,
          ⟨0, 0, 0, 0, ⟨0, 1, 0⟩, ⟨0, 1, 0⟩, ⟨b2Rot_identity, b2Vec2_zero⟩,
           ⟨b2Rot_identity, b2Vec2_zero⟩, b2Vec2_zero, b2Vec2_zero, 0, 0, none, none⟩⟩
        (-1)).weldJoint.linearHertz ≠
      (⟨⟨b2Rot_identity, b2Vec2_zero⟩, ⟨b2Rot_identity, b2Vec2_zero⟩, ⟨0, 1, 0⟩, 0, 0, 0, 0,
          ⟨0, 0, 0, 0, ⟨0, 1, 0⟩, ⟨0, 1, 0⟩, ⟨b2Rot_identity, b2Vec2_zero⟩,
           ⟨b2Rot_identity, b2Vec2_zero⟩, b2Vec2_zero, b2Vec2_zero, 0, 0, none, none⟩⟩ :
        b2JointSim).weldJoint.linearHertz := by
  constructor
  · unfold b2WeldJointSetterAssertOk
    norm_num
  · unfold b2WeldJoint_SetLinearHertz
    norm_num

/-- C2 amended.  Each of the four weld joint setters guards its argument only
with a debug assertion (b2IsValidFloat(v) && v >= 0); in release builds the
store is unconditional, so the new value — valid or not — always replaces the
stored parameter, and no other weld joint parameter changes. -/
theorem weld_setters_store_unconditionally (joint : b2JointSim) (v : ℚ) :
    (b2WeldJoint_SetLinearHertz joint v).weldJoint.linearHertz = v ∧
    (b2WeldJoint_SetLinearDampingRatio joint v).weldJoint.linearDampingRatio = v ∧
    (b2WeldJoint_SetAngularHertz joint v).weldJoint.angularHertz = v ∧
    (b2WeldJoint_SetAngularDampingRatio joint v).weldJoint.angularDampingRatio = v ∧
    (b2WeldJoint_SetLinearHertz joint v).weldJoint.angularHertz
      = joint.weldJoint.angularHertz ∧
    (b2WeldJoint_SetLinearHertz joint v).weldJoint.linearDampingRatio
      = joint.weldJoint.linearDampingRatio ∧
    (b2WeldJoint_SetLinearHertz joint v).weldJoint.angularDampingRatio
      = joint.weldJoint.angularDampingRatio ∧
    (b2WeldJoint_SetLinearHertz joint v).weldJoint.linearImpulse
      = joint.weldJoint.linearImpulse ∧
    (b2WeldJoint_SetLinearHertz joint v).weldJoint.angularImpulse
      = joint.weldJoint.angularImpulse :=
  ⟨rfl, rfl, rfl, rfl, rfl, rfl, rfl, rfl, rfl⟩

/-! ## C5: weld joint force/torque reporting and the event threshold -/

/-- C5.  The reported weld joint force is the accumulated linear impulse
scaled componentwise by the world's stored inv_h, the reported torque is the
accumulated angular impulse scaled by inv_h, and (for a nonnegative inv_h and
thresholds) the joint event condition compares exactly these reported
quantities against forceThreshold and torqueThreshold. -/
theorem weld_force_torque_reporting (world : b2World) (base : b2JointSim)
    (forceThreshold torqueThreshold : ℚ) (hinv : 0 ≤ world.inv_h) :
    (b2GetWeldJointForce world base).x = world.inv_h * base.weldJoint.linearImpulse.x ∧
    (b2GetWeldJointForce world base).y = world.inv_h * base.weldJoint.linearImpulse.y ∧
    b2GetWeldJointTorque world base = world.inv_h * base.weldJoint.angularImpulse ∧
    b2LengthSquared (b2GetWeldJointForce world base)
      = world.inv_h ^ 2 * b2LengthSquared base.weldJoint.linearImpulse ∧
    |b2GetWeldJointTorque world base| = |base.weldJoint.angularImpulse| * world.inv_h ∧
    (b2JointEventCondition base.weldJoint.linearImpulse base.weldJoint.angularImpulse
        world.inv_h forceThreshold torqueThreshold ↔
      (forceThreshold ^ 2 < b2LengthSquared (b2GetWeldJointForce world base)
        ∨ torqueThreshold < |b2GetWeldJointTorque world base|)) := by
  refine ⟨rfl, rfl, rfl, ?_, ?_, ?_⟩
  · unfold b2GetWeldJointForce b2LengthSquared b2MulSV
    ring
  · unfold b2GetWeldJointTorque
    rw [abs_mul, abs_of_nonneg hinv, mul_comm]
  · unfold b2JointEventCondition b2GetWeldJointForce b2GetWeldJointTorque
    constructor
    · rintro (h | h)
      · left
        unfold b2LengthSquared b2MulSV at *
        calc forceThreshold ^ 2 < world.inv_h ^ 2 *
              (base.weldJoint.linearImpulse.x * base.weldJoint.linearImpulse.x +
               base.weldJoint.linearImpulse.y * base.weldJoint.linearImpulse.y) := h
          _ = world.inv_h * base.weldJoint.linearImpulse.x *
                (world.inv_h * base.weldJoint.linearImpulse.x) +
              world.inv_h * base.weldJoint.linearImpulse.y *
                (world.inv_h * base.weldJoint.linearImpulse.y) := by ring
      · right
        rw [abs_mul, abs_of_nonneg hinv, mul_comm]
        exact h
    · rintro (h | h)
      · left
        unfold b2LengthSquared b2MulSV at *
        calc forceThreshold ^ 2 <
            world.inv_h * base.weldJoint.linearImpulse.x *
              (world.inv_h * base.weldJoint.linearImpulse.x) +
            world.inv_h * base.weldJoint.linearImpulse.y *
              (world.inv_h * base.weldJoint.linearImpulse.y) := h
          _ = world.inv_h ^ 2 *
              (base.weldJoint.linearImpulse.x * base.weldJoint.linearImpulse.x +
               base.weldJoint.linearImpulse.y * base.weldJoint.linearImpulse.y) := by ring
      · right
        rw [abs_mul, abs_of_nonneg hinv, mul_comm] at h
        exact h

/-- C5 witness: the reporting identities and the event-condition equivalence
evaluated at a concrete world and joint. -/
theorem weld_force_torque_reporting_witness :
    (0 : ℚ) ≤ (60 : ℚ) ∧
    ((b2GetWeldJointForce ⟨60⟩
        ⟨⟨b2Rot_identity, b2Vec2_zero⟩, ⟨b2Rot_identity, b2Vec2_zero⟩, ⟨0, 1, 0⟩, 0, 0, 0, 0,
          ⟨0, 0, 0, 0, ⟨0, 1, 0⟩, ⟨0, 1, 0⟩, ⟨b2Rot_identity, b2Vec2_zero⟩,
           ⟨b2Rot_identity, b2Vec2_zero⟩, b2Vec2_zero, ⟨3, 4⟩, 2, 0, none, none⟩⟩).x
      = 60 * 3) := by
  refine ⟨by norm_num, ?_⟩
  have h := weld_force_torque_reporting ⟨60⟩
    ⟨⟨b2Rot_identity, b2Vec2_zero⟩, ⟨b2Rot_identity, b2Vec2_zero⟩, ⟨0, 1, 0⟩, 0, 0, 0, 0,
      ⟨0, 0, 0, 0, ⟨0, 1, 0⟩, ⟨0, 1, 0⟩, ⟨b2Rot_identity, b2Vec2_zero⟩,
       ⟨b2Rot_identity, b2Vec2_zero⟩, b2Vec2_zero, ⟨3, 4⟩, 2, 0, none, none⟩⟩
    1 1 (by norm_num)
  exact h.1

/-! ## Further state-array helper lemmas -/

lemma list_getD_set_set_fst {α : Type} {l : List α} {i j : Nat} {u v d : α}
    (hij : i ≠ j) (hi : i < l.length) :
    ((l.set i u).set j v).getD i d = u := by
  rw [list_getD_set_ne _ _ _ (Ne.symm hij), list_getD_set_self _ _ _ hi]

lemma list_getD_set_set_snd {α : Type} {l : List α} {i j : Nat} {u v d : α}
    (hj : j < l.length) :
    ((l.set i u).set j v).getD j d = v := by
  have hj2 : j < (l.set i u).length := by rw [List.length_set]; exact hj
  rw [list_getD_set_self _ _ _ hj2]

lemma b2SetState_getState_eta (env : b2SolverStates) (idx : Option Nat) :
    b2SetState env idx
      ⟨(b2GetState env idx).linearVelocity, (b2GetState env idx).angularVelocity,
       (b2GetState env idx).deltaPosition, (b2GetState env idx).deltaRotation⟩ = env :=
  b2SetState_getState env idx

lemma b2SetState_getD_ne (env : b2SolverStates) (idx : Option Nat) (r : b2BodyState)
    (k : Nat) (h : idx ≠ some k) :
    (b2SetState env idx r).states.getD k b2_identityBodyState
      = env.states.getD k b2_identityBodyState := by
  cases idx with
  | none => rfl
  | some m =>
      exact list_getD_set_ne env.states _ _ (fun hm => h (by rw [hm]))

lemma b2SetState_states_length (env : b2SolverStates) (idx : Option Nat) (r : b2BodyState) :
    (b2SetState env idx r).states.length = env.states.length := by
  cases idx with
  | none => rfl
  | some m => exact List.length_set env.states m r

/-! ## C1: warm-starting toggle for the weld joint -/

/-- C1.  (i) When warm starting is disabled in the step context,
b2PrepareWeldJoint zeroes the stored linear and angular impulses.  (ii) A
warm-start pass over a weld joint whose stored impulses are zero leaves the
body states (in particular the linear and angular velocities of both bodies)
unchanged.  (iii) When warm starting is enabled the stored impulses are kept
by prepare, and b2WarmStartWeldJoint applies them to the velocities of both
bodies: body A receives -invMassA·P and the matching angular term, body B
+invMassB·P and its angular term. -/
theorem weld_warm_start_toggle
    (base : b2JointSim) (bodySimA bodySimB : b2BodySim)
    (setIndexA setIndexB localIndexA localIndexB : Nat) (context : b2StepContext) :
    (context.enableWarmStarting = false →
      (b2PrepareWeldJoint base bodySimA bodySimB setIndexA setIndexB localIndexA localIndexB
          context).weldJoint.linearImpulse = b2Vec2_zero ∧
      (b2PrepareWeldJoint base bodySimA bodySimB setIndexA setIndexB localIndexA localIndexB
          context).weldJoint.angularImpulse = 0) ∧
    (∀ base0 : b2JointSim, ∀ states : List b2BodyState,
      base0.weldJoint.linearImpulse = b2Vec2_zero → base0.weldJoint.angularImpulse = 0 →
      b2WarmStartWeldJoint base0 states = states) ∧
    (context.enableWarmStarting = true →
      (b2PrepareWeldJoint base bodySimA bodySimB setIndexA setIndexB localIndexA localIndexB
          context).weldJoint.linearImpulse = base.weldJoint.linearImpulse ∧
      (b2PrepareWeldJoint base bodySimA bodySimB setIndexA setIndexB localIndexA localIndexB
          context).weldJoint.angularImpulse = base.weldJoint.angularImpulse) ∧
    (∀ base0 : b2JointSim, ∀ states : List b2BodyState, ∀ i j : Nat,
      base0.weldJoint.indexA = some i → base0.weldJoint.indexB = some j →
      i ≠ j → i < states.length → j < states.length →
      ((b2WarmStartWeldJoint base0 states).getD i b2_identityBodyState).linearVelocity
          = b2MulSub (states.getD i b2_identityBodyState).linearVelocity
              base0.invMassA base0.weldJoint.linearImpulse ∧
      ((b2WarmStartWeldJoint base0 states).getD i b2_identityBodyState).angularVelocity
          = (states.getD i b2_identityBodyState).angularVelocity
            - base0.invIA * (b2Cross
                (b2RotateVector (states.getD i b2_identityBodyState).deltaRotation
                  base0.weldJoint.frameA.p) base0.weldJoint.linearImpulse
              + base0.weldJoint.angularImpulse) ∧
      ((b2WarmStartWeldJoint base0 states).getD j b2_identityBodyState).linearVelocity
          = b2MulAdd (states.getD j b2_identityBodyState).linearVelocity
              base0.invMassB base0.weldJoint.linearImpulse ∧
      ((b2WarmStartWeldJoint base0 states).getD j b2_identityBodyState).angularVelocity
          = (states.getD j b2_identityBodyState).angularVelocity
            + base0.invIB * (b2Cross
                (b2RotateVector (states.getD j b2_identityBodyState).deltaRotation
                  base0.weldJoint.frameB.p) base0.weldJoint.linearImpulse
              + base0.weldJoint.angularImpulse)) := by
  refine ⟨?_, ?_, ?_, ?_⟩
  · intro hws
    unfold b2PrepareWeldJoint
    rw [hws]
    simp
  · intro base0 states h1 h2
    unfold b2WarmStartWeldJoint
    simp only [h1, h2, b2MulSub_zero, b2MulAdd_zero, b2Cross_zero, add_zero, mul_zero,
      sub_zero, b2SetState_getState, b2SetState_getState_eta]
  · intro hws
    unfold b2PrepareWeldJoint
    rw [hws]
    simp
  · intro base0 states i j hA hB hij hi hj
    unfold b2WarmStartWeldJoint
    simp only [hA, hB, b2GetState, b2SetState]
    refine ⟨?_, ?_, ?_, ?_⟩
    · rw [list_getD_set_set_fst hij hi]
    · rw [list_getD_set_set_fst hij hi]
    · rw [list_getD_set_set_snd hj, list_getD_set_ne _ _ _ hij]
    · rw [list_getD_set_set_snd hj, list_getD_set_ne _ _ _ hij]

/-- C1 witness: the toggle evaluated at a concrete joint and state list. -/
theorem weld_warm_start_toggle_witness :
    (b2PrepareWeldJoint
        ⟨⟨b2Rot_identity, b2Vec2_zero⟩, ⟨b2Rot_identity, b2Vec2_zero⟩, ⟨0, 1, 0⟩, 1, 1, 1, 1,
          ⟨0, 0, 0, 0, ⟨0, 1, 0⟩, ⟨0, 1, 0⟩, ⟨b2Rot_identity, b2Vec2_zero⟩,
           ⟨b2Rot_identity, b2Vec2_zero⟩, b2Vec2_zero, ⟨5, 7⟩, 11, 0, some 0, some 1⟩⟩
        ⟨⟨b2Rot_identity, b2Vec2_zero⟩, b2Vec2_zero, b2Vec2_zero, 1, 1⟩
        ⟨⟨b2Rot_identity, b2Vec2_zero⟩, b2Vec2_zero, b2Vec2_zero, 1, 1⟩
        2 2 0 1 ⟨1, 1, false⟩).weldJoint.linearImpulse = b2Vec2_zero ∧
    b2WarmStartWeldJoint
        ⟨⟨b2Rot_identity, b2Vec2_zero⟩, ⟨b2Rot_identity, b2Vec2_zero⟩, ⟨0, 1, 0⟩, 1, 1, 1, 1,
          ⟨0, 0, 0, 0, ⟨0, 1, 0⟩, ⟨0, 1, 0⟩, ⟨b2Rot_identity, b2Vec2_zero⟩,
           ⟨b2Rot_identity, b2Vec2_zero⟩, b2Vec2_zero, b2Vec2_zero, 0, 0, some 0, some 1⟩⟩
        [b2_identityBodyState, b2_identityBodyState]
      = [b2_identityBodyState, b2_identityBodyState] := by
  constructor
  · exact (weld_warm_start_toggle _ _ _ _ _ _ _ _).1 rfl |>.1
  · exact (weld_warm_start_toggle
      ⟨⟨b2Rot_identity, b2Vec2_zero⟩, ⟨b2Rot_identity, b2Vec2_zero⟩, ⟨0, 1, 0⟩, 1, 1, 1, 1,
        ⟨0, 0, 0, 0, ⟨0, 1, 0⟩, ⟨0, 1, 0⟩, ⟨b2Rot_identity, b2Vec2_zero⟩,
         ⟨b2Rot_identity, b2Vec2_zero⟩, b2Vec2_zero, b2Vec2_zero, 0, 0, some 0, some 1⟩⟩
      ⟨⟨b2Rot_identity, b2Vec2_zero⟩, b2Vec2_zero, b2Vec2_zero, 1, 1⟩
      ⟨⟨b2Rot_identity, b2Vec2_zero⟩, b2Vec2_zero, b2Vec2_zero, 1, 1⟩
      2 2 0 1 ⟨1, 1, false⟩).2.1 _ _ rfl rfl

/-! ## C9: equal-and-opposite impulses conserve linear momentum -/

lemma momentum_cancel (mA mB : ℚ) (vA vB P : b2Vec2) (hmA : mA ≠ 0) (hmB : mB ≠ 0) :
    b2Add (b2MulSV (1 / mA) (b2MulSub vA mA P)) (b2MulSV (1 / mB) (b2MulAdd vB mB P))
      = b2Add (b2MulSV (1 / mA) vA) (b2MulSV (1 / mB) vB) := by
  unfold b2Add b2MulSV b2MulSub b2MulAdd
  simp only [b2Vec2.mk.injEq]
  constructor
  · field_simp
    ring
  · field_simp
    ring

/-- C9.  One warm-start pass and one solve pass over a weld joint whose two
bodies are awake (cached indices some i, some j) change body A's linear
velocity by -invMassA·P and body B's by +invMassB·P for the same impulse P, so
when both inverse masses are positive (positive finite masses) the pair's
total linear momentum, with masses 1/invMass, is unchanged. -/
theorem weld_momentum_conservation (atan2 : ℚ → ℚ → ℚ) (base : b2JointSim)
    (states : List b2BodyState) (useBias : Bool) (i j : Nat)
    (hA : base.weldJoint.indexA = some i) (hB : base.weldJoint.indexB = some j)
    (hij : i ≠ j) (hi : i < states.length) (hj : j < states.length)
    (hmA : 0 < base.invMassA) (hmB : 0 < base.invMassB) :
    b2Add
        (b2MulSV (1 / base.invMassA)
          ((b2WarmStartWeldJoint base states).getD i b2_identityBodyState).linearVelocity)
        (b2MulSV (1 / base.invMassB)
          ((b2WarmStartWeldJoint base states).getD j b2_identityBodyState).linearVelocity)
      = b2Add
          (b2MulSV (1 / base.invMassA) ((states.getD i b2_identityBodyState).linearVelocity))
          (b2MulSV (1 / base.invMassB) ((states.getD j b2_identityBodyState).linearVelocity)) ∧
    b2Add
        (b2MulSV (1 / base.invMassA)
          (((b2SolveWeldJoint atan2 base states useBias).2.getD i
              b2_identityBodyState).linearVelocity))
        (b2MulSV (1 / base.invMassB)
          (((b2SolveWeldJoint atan2 base states useBias).2.getD j
              b2_identityBodyState).linearVelocity))
      = b2Add
          (b2MulSV (1 / base.invMassA) ((states.getD i b2_identityBodyState).linearVelocity))
          (b2MulSV (1 / base.invMassB) ((states.getD j b2_identityBodyState).linearVelocity)) := by
  constructor
  · unfold b2WarmStartWeldJoint
    simp only [hA, hB, b2GetState, b2SetState]
    rw [list_getD_set_set_fst hij hi, list_getD_set_set_snd hj, list_getD_set_ne _ _ _ hij]
    exact momentum_cancel _ _ _ _ _ (ne_of_gt hmA) (ne_of_gt hmB)
  · unfold b2SolveWeldJoint
    simp only [hA, hB, b2GetState, b2SetState]
    rw [list_getD_set_set_fst hij hi, list_getD_set_set_snd hj, list_getD_set_ne _ _ _ hij]
    exact momentum_cancel _ _ _ _ _ (ne_of_gt hmA) (ne_of_gt hmB)

/-- C9 witness: momentum conservation evaluated at a concrete weld joint,
body pair and velocity state. -/
theorem weld_momentum_conservation_witness :
    (0 : ℚ) < 1 ∧ (0 : Nat) ≠ 1 ∧
    b2Add
        (b2MulSV (1 / (1 : ℚ))
          ((b2WarmStartWeldJoint
              ⟨⟨b2Rot_identity, b2Vec2_zero⟩, ⟨b2Rot_identity, b2Vec2_zero⟩, ⟨0, 1, 0⟩,
                1, 1, 1, 1,
                ⟨0, 0, 0, 0, ⟨0, 1, 0⟩, ⟨0, 1, 0⟩, ⟨b2Rot_identity, b2Vec2_zero⟩,
                 ⟨b2Rot_identity, b2Vec2_zero⟩, b2Vec2_zero, ⟨2, 3⟩, 5, 0, some 0, some 1⟩⟩
              [⟨⟨1, 0⟩, 0, b2Vec2_zero, b2Rot_identity⟩,
               ⟨⟨0, 1⟩, 0, b2Vec2_zero, b2Rot_identity⟩]).getD 0
            b2_identityBodyState).linearVelocity)
        (b2MulSV (1 / (1 : ℚ))
          ((b2WarmStartWeldJoint
              ⟨⟨b2Rot_identity, b2Vec2_zero⟩, ⟨b2Rot_identity, b2Vec2_zero⟩, ⟨0, 1, 0⟩,
                1, 1, 1, 1,
                ⟨0, 0, 0, 0, ⟨0, 1, 0⟩, ⟨0, 1, 0⟩, ⟨b2Rot_identity, b2Vec2_zero⟩,
                 ⟨b2Rot_identity, b2Vec2_zero⟩, b2Vec2_zero, ⟨2, 3⟩, 5, 0, some 0, some 1⟩⟩
              [⟨⟨1, 0⟩, 0, b2Vec2_zero, b2Rot_identity⟩,
               ⟨⟨0, 1⟩, 0, b2Vec2_zero, b2Rot_identity⟩]).getD 1
            b2_identityBodyState).linearVelocity)
      = b2Add (b2MulSV (1 / (1 : ℚ)) (⟨1, 0⟩ : b2Vec2)) (b2MulSV (1 / (1 : ℚ)) ⟨0, 1⟩) := by
  refine ⟨by norm_num, by decide, ?_⟩
  exact (weld_momentum_conservation (fun _ _ => 0)
    ⟨⟨b2Rot_identity, b2Vec2_zero⟩, ⟨b2Rot_identity, b2Vec2_zero⟩, ⟨0, 1, 0⟩, 1, 1, 1, 1,
      ⟨0, 0, 0, 0, ⟨0, 1, 0⟩, ⟨0, 1, 0⟩, ⟨b2Rot_identity, b2Vec2_zero⟩,
       ⟨b2Rot_identity, b2Vec2_zero⟩, b2Vec2_zero, ⟨2, 3⟩, 5, 0, some 0, some 1⟩⟩
    [⟨⟨1, 0⟩, 0, b2Vec2_zero, b2Rot_identity⟩, ⟨⟨0, 1⟩, 0, b2Vec2_zero, b2Rot_identity⟩]
    false 0 1 rfl rfl (by decide) (by decide) (by decide) (by norm_num) (by norm_num)).1

/-! ## C10: non-awake bodies are untouched by the weld passes -/

/-- C10.  b2PrepareWeldJoint caches B2_NULL_INDEX (none) for a body whose
solver set is not the awake set; b2WarmStartWeldJoint and b2SolveWeldJoint
route such a body through the function-local dummy state, so every entry of
context->states other than the cached awake indices — in particular the
persistent velocity state of every static or sleeping body — is unchanged,
and the states array keeps its length. -/
theorem weld_nonawake_bodies_untouched (atan2 : ℚ → ℚ → ℚ) (base : b2JointSim)
    (states : List b2BodyState) (useBias : Bool) :
    (∀ k : Nat, base.weldJoint.indexA ≠ some k → base.weldJoint.indexB ≠ some k →
      (b2WarmStartWeldJoint base states).getD k b2_identityBodyState
          = states.getD k b2_identityBodyState ∧
      (b2SolveWeldJoint atan2 base states useBias).2.getD k b2_identityBodyState
          = states.getD k b2_identityBodyState) ∧
    (b2WarmStartWeldJoint base states).length = states.length ∧
    (b2SolveWeldJoint atan2 base states useBias).2.length = states.length ∧
    (∀ bodySimA bodySimB : b2BodySim, ∀ setIndexA setIndexB localIndexA localIndexB : Nat,
      ∀ context : b2StepContext,
      (setIndexA ≠ b2_awakeSet →
        (b2PrepareWeldJoint base bodySimA bodySimB setIndexA setIndexB localIndexA localIndexB
            context).weldJoint.indexA = none) ∧
      (setIndexB ≠ b2_awakeSet →
        (b2PrepareWeldJoint base bodySimA bodySimB setIndexA setIndexB localIndexA localIndexB
            context).weldJoint.indexB = none)) := by
  refine ⟨?_, ?_, ?_, ?_⟩
  · intro k hkA hkB
    constructor
    · unfold b2WarmStartWeldJoint
      simp only []
      rw [b2SetState_getD_ne _ _ _ _ hkB, b2SetState_getD_ne _ _ _ _ hkA]
    · unfold b2SolveWeldJoint
      simp only []
      rw [b2SetState_getD_ne _ _ _ _ hkB, b2SetState_getD_ne _ _ _ _ hkA]
  · unfold b2WarmStartWeldJoint
    simp only []
    rw [b2SetState_states_length, b2SetState_states_length]
  · unfold b2SolveWeldJoint
    simp only []
    rw [b2SetState_states_length, b2SetState_states_length]
  · intro bodySimA bodySimB setIndexA setIndexB localIndexA localIndexB context
    constructor
    · intro hs
      unfold b2PrepareWeldJoint
      simp [hs]
    · intro hs
      unfold b2PrepareWeldJoint
      simp [hs]

/-- C10 witness: a weld joint whose body A is non-awake (cached index none)
leaves every states entry in place on the warm-start pass. -/
theorem weld_nonawake_bodies_untouched_witness :
    ((⟨0, 0, 0, 0, ⟨0, 1, 0⟩, ⟨0, 1, 0⟩, ⟨b2Rot_identity, b2Vec2_zero⟩,
        ⟨b2Rot_identity, b2Vec2_zero⟩, b2Vec2_zero, ⟨2, 3⟩, 5, 0, none, some 1⟩ :
      b2WeldJoint).indexA ≠ some 0) ∧
    (b2WarmStartWeldJoint
        ⟨⟨b2Rot_identity, b2Vec2_zero⟩, ⟨b2Rot_identity, b2Vec2_zero⟩, ⟨0, 1, 0⟩, 1, 1, 1, 1,
          ⟨0, 0, 0, 0, ⟨0, 1, 0⟩, ⟨0, 1, 0⟩, ⟨b2Rot_identity, b2Vec2_zero⟩,
           ⟨b2Rot_identity, b2Vec2_zero⟩, b2Vec2_zero, ⟨2, 3⟩, 5, 0, none, some 1⟩⟩
        [⟨⟨1, 0⟩, 0, b2Vec2_zero, b2Rot_identity⟩,
         ⟨⟨0, 1⟩, 0, b2Vec2_zero, b2Rot_identity⟩]).getD 0 b2_identityBodyState
      = ⟨⟨1, 0⟩, 0, b2Vec2_zero, b2Rot_identity⟩ := by
  refine ⟨by decide, ?_⟩
  exact ((weld_nonawake_bodies_untouched (fun _ _ => 0)
    ⟨⟨b2Rot_identity, b2Vec2_zero⟩, ⟨b2Rot_identity, b2Vec2_zero⟩, ⟨0, 1, 0⟩, 1, 1, 1, 1,
      ⟨0, 0, 0, 0, ⟨0, 1, 0⟩, ⟨0, 1, 0⟩, ⟨b2Rot_identity, b2Vec2_zero⟩,
       ⟨b2Rot_identity, b2Vec2_zero⟩, b2Vec2_zero, ⟨2, 3⟩, 5, 0, none, some 1⟩⟩
    [⟨⟨1, 0⟩, 0, b2Vec2_zero, b2Rot_identity⟩, ⟨⟨0, 1⟩, 0, b2Vec2_zero, b2Rot_identity⟩]
    false).1 0 (by decide) (by decide)).1

/-! ## C4: double-buffered end-touch event arrays

physics_world.h lines 112-115 declare the storage: two end-event arrays per
category and a current-buffer index ("End events are double buffered so that
the user doesn't need to flush events").  The per-step buffer swap itself is
in world code that is not in src, so it is modelled from the spec. -/

/-- The end-touch event storage of b2World: sensorEndEvents[2] or
contactEndEvents[2] together with endEventArrayIndex, the index (here a Bool)
of the buffer being filled by the current step. -/
structure b2EndEventBuffers (α : Type) where
  endEvents : Bool → List α
  endEventArrayIndex : Bool

/-- Modelled from the spec: the per-step handling of an end-touch event array
(§5 Ordering guarantees; the swap in the world step code is not in src).  A
step flips endEventArrayIndex to the other buffer and fills it with the
end-touch events generated during that step; the previously exposed buffer is
not written. -/
def b2StepEndEvents {α : Type} (w : b2EndEventBuffers α) (stepEvents : List α) :
    b2EndEventBuffers α :=
  ⟨fun b => if b = !w.endEventArrayIndex then stepEvents else w.endEvents b,
   !w.endEventArrayIndex⟩

/-- The array exposed to the user after a step: the buffer the step just
filled. -/
def b2ExposedEndEvents {α : Type} (w : b2EndEventBuffers α) : List α :=
  w.endEvents w.endEventArrayIndex

/-- C4.  After step N the exposed end-touch event array holds exactly the
end-touch events generated during step N; the array exposed after step N is
not written by anything until the next step begins (reads leave the buffers
untouched, and even the next step writes only the other buffer, as the third
conjunct shows); and after a further step N+1 the exposed array holds exactly
step N+1's events. -/
theorem end_events_double_buffered {α : Type} (w : b2EndEventBuffers α)
    (eventsN eventsN1 : List α) :
    b2ExposedEndEvents (b2StepEndEvents w eventsN) = eventsN ∧
    (b2StepEndEvents w eventsN).endEvents w.endEventArrayIndex = b2ExposedEndEvents w ∧
    (b2StepEndEvents (b2StepEndEvents w eventsN) eventsN1).endEvents
        (b2StepEndEvents w eventsN).endEventArrayIndex
      = b2ExposedEndEvents (b2StepEndEvents w eventsN) ∧
    b2ExposedEndEvents (b2StepEndEvents (b2StepEndEvents w eventsN) eventsN1) = eventsN1 := by
  refine ⟨?_, ?_, ?_, ?_⟩
  · unfold b2ExposedEndEvents b2StepEndEvents
    simp
  · unfold b2ExposedEndEvents b2StepEndEvents
    simp [Bool.eq_not_self]
  · unfold b2ExposedEndEvents b2StepEndEvents
    simp [Bool.eq_not_self]
  · unfold b2ExposedEndEvents b2StepEndEvents
    simp

/-! ## C8: constraint graph coloring

types.h gives the color capacity (b2Counters.colorCounts[24]) and
physics_world.h holds the graph (b2World.constraintGraph); the coloring code
itself (constraint_graph.c) is not in src, so the greedy assignment is
modelled from the spec §4.5. -/

/-- Embedding of the color capacity from b2Counters.colorCounts[24]. -/
def b2_graphColorCount : Nat := 24

/-- A constraint (contact or joint) as the graph sees it: its two bodies.
A dynamic body carries its id (some id); a static body, which colors ignore,
is none. -/
structure b2GraphConstraint where
  bodyA : Option Nat
  bodyB : Option Nat
deriving DecidableEq

/-- The constraint graph: one constraint list per color plus the overflow
color solved single-threaded. -/
structure b2ConstraintGraphModel where
  colors : Fin b2_graphColorCount → List b2GraphConstraint
  overflow : List b2GraphConstraint

/-- The empty graph. -/
def b2EmptyGraph : b2ConstraintGraphModel := ⟨fun _ => [], []⟩

/-- Whether a dynamic body is already represented in a color (the per-body
color-bitmask bit of the spec); a static body (none) never occupies a
color. -/
def b2BodyInColor (g : b2ConstraintGraphModel) (c : Fin b2_graphColorCount)
    (b : Option Nat) : Bool :=
  match b with
  | none => false
  | some id => (g.colors c).any fun k => k.bodyA == some id || k.bodyB == some id

/-- Modelled from the spec: greedy color assignment (§4.5).  Scan the colors
for the lowest index where neither body is yet represented; if none has room,
place the constraint in the overflow color. -/
def b2AddConstraintToGraph (g : b2ConstraintGraphModel) (k : b2GraphConstraint) :
    b2ConstraintGraphModel :=
  match (List.finRange b2_graphColorCount).find?
      (fun c => !(b2BodyInColor g c k.bodyA) && !(b2BodyInColor g c k.bodyB)) with
  | some c => { g with colors := Function.update g.colors c (k :: g.colors c) }
  | none => { g with overflow := k :: g.overflow }

/-- Building the graph from a sequence of activated constraints. -/
def b2BuildGraph (ks : List b2GraphConstraint) : b2ConstraintGraphModel :=
  ks.foldl b2AddConstraintToGraph b2EmptyGraph

/-- Two constraints share a dynamic body. -/
def b2SharesDynamicBody (k1 k2 : b2GraphConstraint) : Prop :=
  ∃ b : Nat, (k1.bodyA = some b ∨ k1.bodyB = some b) ∧ (k2.bodyA = some b ∨ k2.bodyB = some b)

/-- The coloring invariant: within any single color, no two constraints share
a dynamic body. -/
def b2GraphColorInvariant (g : b2ConstraintGraphModel) : Prop :=
  ∀ c : Fin b2_graphColorCount,
    List.Pairwise (fun k1 k2 => ¬ b2SharesDynamicBody k1 k2) (g.colors c)

/-- Total number of constraints held by the colors and the overflow list. -/
def b2GraphTotal (g : b2ConstraintGraphModel) : Nat :=
  (∑ c : Fin b2_graphColorCount, (g.colors c).length) + g.overflow.length

lemma b2AddConstraintToGraph_invariant (g : b2ConstraintGraphModel)
    (k : b2GraphConstraint) (hg : b2GraphColorInvariant g) :
    b2GraphColorInvariant (b2AddConstraintToGraph g k) := by
  unfold b2AddConstraintToGraph
  cases hfind : (List.finRange b2_graphColorCount).find?
      (fun c => !(b2BodyInColor g c k.bodyA) && !(b2BodyInColor g c k.bodyB)) with
  | none => exact hg
  | some c =>
      have hpred := List.find?_some hfind
      rw [Bool.and_eq_true, Bool.not_eq_true', Bool.not_eq_true'] at hpred
      intro c'
      dsimp only
      by_cases hc : c' = c
      · subst hc
        rw [Function.update_same]
        refine List.Pairwise.cons ?_ (hg c')
        intro k' hk' hshare
        obtain ⟨b, hk, hk'b⟩ := hshare
        have hocc : b2BodyInColor g c' (some b) = true := by
          unfold b2BodyInColor
          rw [List.any_eq_true]
          refine ⟨k', hk', ?_⟩
          rw [Bool.or_eq_true, beq_iff_eq, beq_iff_eq]
          exact hk'b
        rcases hk with hka | hkb
        · rw [← hka] at hocc
          rw [hpred.1] at hocc
          exact Bool.false_ne_true hocc
        · rw [← hkb] at hocc
          rw [hpred.2] at hocc
          exact Bool.false_ne_true hocc
      · rw [Function.update_noteq hc]
        exact hg c'

lemma b2AddConstraintToGraph_total (g : b2ConstraintGraphModel) (k : b2GraphConstraint) :
    b2GraphTotal (b2AddConstraintToGraph g k) = b2GraphTotal g + 1 := by
  unfold b2AddConstraintToGraph b2GraphTotal
  cases hfind : (List.finRange b2_graphColorCount).find?
      (fun c => !(b2BodyInColor g c k.bodyA) && !(b2BodyInColor g c k.bodyB)) with
  | none => simp [Nat.add_assoc]
  | some c =>
      dsimp only
      have hsum : (∑ c' : Fin b2_graphColorCount,
          (Function.update g.colors c (k :: g.colors c) c').length)
          = (∑ c' : Fin b2_graphColorCount, (g.colors c').length) + 1 := by
        have hsplit : ∀ c' : Fin b2_graphColorCount,
            (Function.update g.colors c (k :: g.colors c) c').length
              = (g.colors c').length + (if c' = c then 1 else 0) := by
          intro c'
          by_cases hc : c' = c
          · subst hc
            rw [Function.update_same]
            simp
          · rw [Function.update_noteq hc, if_neg hc, Nat.add_zero]
        rw [Finset.sum_congr rfl (fun c' _ => hsplit c'), Finset.sum_add_distrib,
          Finset.sum_ite_eq' Finset.univ c (fun _ => 1)]
        simp
      rw [hsum]
      omega

/-- C8.  Building the constraint graph by the greedy assignment distributes
every awake constraint into one of the b2_graphColorCount = 24 colors or the
overflow color (the totals add up), and within any single color no two
constraints share a dynamic body. -/
theorem graph_coloring_bounded_and_disjoint (ks : List b2GraphConstraint) :
    b2_graphColorCount = 24 ∧
    b2GraphColorInvariant (b2BuildGraph ks) ∧
    b2GraphTotal (b2BuildGraph ks) = ks.length := by
  refine ⟨rfl, ?_, ?_⟩
  · suffices h : ∀ g : b2ConstraintGraphModel, b2GraphColorInvariant g →
        b2GraphColorInvariant (ks.foldl b2AddConstraintToGraph g) by
      refine h b2EmptyGraph ?_
      intro c
      exact List.Pairwise.nil
    induction ks with
    | nil => intro g hg; exact hg
    | cons k ks ih =>
        intro g hg
        exact ih _ (b2AddConstraintToGraph_invariant g k hg)
  · suffices h : ∀ g : b2ConstraintGraphModel,
        b2GraphTotal (ks.foldl b2AddConstraintToGraph g) = b2GraphTotal g + ks.length by
      have h0 : b2GraphTotal b2EmptyGraph = 0 := by
        unfold b2GraphTotal b2EmptyGraph
        simp
      rw [b2BuildGraph, h b2EmptyGraph, h0, Nat.zero_add]
    induction ks with
    | nil => intro g; simp
    | cons k ks ih =>
        intro g
        rw [List.foldl_cons, ih, b2AddConstraintToGraph_total]
        simp [Nat.add_assoc, Nat.add_comm 1 ks.length]

/-! ## C7: GJK distance with simplex cache

The distance routine itself (distance.c) is not in src; the sample
(sample_collision.cpp, ShapeDistance::Step) only calls it.  The algorithm is
modelled from the spec §4.2: support function by maximal dot product, simplex
of one to three tagged vertices reduced by Johnson's algorithm, search
direction the negated closest point, termination when the new support vertex
adds nothing (it is already in the simplex) or when the iteration cap (20) is
reached, and a cache of the final vertex indices plus a metric that is
validated on the next call.  Everything is exact-rational; distances appear
squared so they stay in ℚ, and the useRadii post-processing (a deterministic
function of this core output) is outside the core. -/

/-- A simplex vertex: the support indices on the two proxies and the two
support points in the common frame.  The Minkowski vertex is wA - wB (the
spec's w_i = supportA_i - supportB_i). -/
structure SVertex where
  indexA : Nat
  indexB : Nat
  wA : b2Vec2
  wB : b2Vec2
deriving DecidableEq

/-- The Minkowski-difference vertex of a simplex vertex. -/
def svW (v : SVertex) : b2Vec2 := b2Sub v.wA v.wB

/-- The vertices of a weighted simplex. -/
def simplexVerts (ws : List (SVertex × ℚ)) : List SVertex := ws.map Prod.fst

/-- Weighted combination of a per-vertex point over a solved simplex. -/
def weightedSum (f : SVertex → b2Vec2) : List (SVertex × ℚ) → b2Vec2
  | [] => b2Vec2_zero
  | (v, a) :: rest => b2Add (b2MulSV a (f v)) (weightedSum f rest)

/-- Closest point on proxy A implied by the solved simplex. -/
def simplexPointA (ws : List (SVertex × ℚ)) : b2Vec2 := weightedSum (fun v => v.wA) ws

/-- Closest point on proxy B implied by the solved simplex. -/
def simplexPointB (ws : List (SVertex × ℚ)) : b2Vec2 := weightedSum (fun v => v.wB) ws

/-- The simplex's implicit closest point to the origin, pointA - pointB. -/
def simplexClosest (ws : List (SVertex × ℚ)) : b2Vec2 :=
  b2Sub (simplexPointA ws) (simplexPointB ws)

/-- Barycentric edge coefficient d_1 of the segment w1-w2 (weight of keeping
w1 in the closest-point combination). -/
def edgeD1 (w1 w2 : b2Vec2) : ℚ := b2Dot w2 (b2Sub w2 w1)

/-- Barycentric edge coefficient d_2 of the segment w1-w2. -/
def edgeD2 (w1 w2 : b2Vec2) : ℚ := -(b2Dot w1 (b2Sub w2 w1))

/-- Signed triangle coefficient for the vertex-1 weight of triangle
w1-w2-w3. -/
def triD1 (w1 w2 w3 : b2Vec2) : ℚ :=
  b2Cross (b2Sub w2 w1) (b2Sub w3 w1) * b2Cross w2 w3

/-- Signed triangle coefficient for the vertex-2 weight. -/
def triD2 (w1 w2 w3 : b2Vec2) : ℚ :=
  b2Cross (b2Sub w2 w1) (b2Sub w3 w1) * b2Cross w3 w1

/-- Signed triangle coefficient for the vertex-3 weight. -/
def triD3 (w1 w2 w3 : b2Vec2) : ℚ :=
  b2Cross (b2Sub w2 w1) (b2Sub w3 w1) * b2Cross w1 w2

/-- Modelled from the spec: Johnson reduction of a 2-simplex — keep the
closest subset of the segment to the origin with barycentric weights. -/
def solveSimplex2 (v1 v2 : SVertex) : List (SVertex × ℚ) :=
  if edgeD2 (svW v1) (svW v2) ≤ 0 then [(v1, 1)]
  else if edgeD1 (svW v1) (svW v2) ≤ 0 then [(v2, 1)]
  else
    [(v1, edgeD1 (svW v1) (svW v2) * (1 / (edgeD1 (svW v1) (svW v2) + edgeD2 (svW v1) (svW v2)))),
     (v2, edgeD2 (svW v1) (svW v2) * (1 / (edgeD1 (svW v1) (svW v2) + edgeD2 (svW v1) (svW v2))))]

/-- Modelled from the spec: Johnson reduction of a 3-simplex — the closest
Voronoi region of the triangle to the origin, by vertex, edge and interior
cases. -/
def solveSimplex3 (v1 v2 v3 : SVertex) : List (SVertex × ℚ) :=
  if edgeD2 (svW v1) (svW v2) ≤ 0 ∧ edgeD2 (svW v1) (svW v3) ≤ 0 then [(v1, 1)]
  else if 0 < edgeD1 (svW v1) (svW v2) ∧ 0 < edgeD2 (svW v1) (svW v2)
      ∧ triD3 (svW v1) (svW v2) (svW v3) ≤ 0 then
    [(v1, edgeD1 (svW v1) (svW v2) * (1 / (edgeD1 (svW v1) (svW v2) + edgeD2 (svW v1) (svW v2)))),
     (v2, edgeD2 (svW v1) (svW v2) * (1 / (edgeD1 (svW v1) (svW v2) + edgeD2 (svW v1) (svW v2))))]
  else if 0 < edgeD1 (svW v1) (svW v3) ∧ 0 < edgeD2 (svW v1) (svW v3)
      ∧ triD2 (svW v1) (svW v2) (svW v3) ≤ 0 then
    [(v1, edgeD1 (svW v1) (svW v3) * (1 / (edgeD1 (svW v1) (svW v3) + edgeD2 (svW v1) (svW v3)))),
     (v3, edgeD2 (svW v1) (svW v3) * (1 / (edgeD1 (svW v1) (svW v3) + edgeD2 (svW v1) (svW v3))))]
  else if edgeD1 (svW v1) (svW v2) ≤ 0 ∧ edgeD2 (svW v2) (svW v3) ≤ 0 then [(v2, 1)]
  else if edgeD1 (svW v1) (svW v3) ≤ 0 ∧ edgeD1 (svW v2) (svW v3) ≤ 0 then [(v3, 1)]
  else if 0 < edgeD1 (svW v2) (svW v3) ∧ 0 < edgeD2 (svW v2) (svW v3)
      ∧ triD1 (svW v1) (svW v2) (svW v3) ≤ 0 then
    [(v2, edgeD1 (svW v2) (svW v3) * (1 / (edgeD1 (svW v2) (svW v3) + edgeD2 (svW v2) (svW v3)))),
     (v3, edgeD2 (svW v2) (svW v3) * (1 / (edgeD1 (svW v2) (svW v3) + edgeD2 (svW v2) (svW v3))))]
  else
    [(v1, triD1 (svW v1) (svW v2) (svW v3)
        * (1 / (triD1 (svW v1) (svW v2) (svW v3) + triD2 (svW v1) (svW v2) (svW v3)
            + triD3 (svW v1) (svW v2) (svW v3)))),
     (v2, triD2 (svW v1) (svW v2) (svW v3)
        * (1 / (triD1 (svW v1) (svW v2) (svW v3) + triD2 (svW v1) (svW v2) (svW v3)
            + triD3 (svW v1) (svW v2) (svW v3)))),
     (v3, triD3 (svW v1) (svW v2) (svW v3)
        * (1 / (triD1 (svW v1) (svW v2) (svW v3) + triD2 (svW v1) (svW v2) (svW v3)
            + triD3 (svW v1) (svW v2) (svW v3))))]

/-- Reduce a simplex of one to three vertices to the closest subset with its
barycentric weights; the weights of the input never matter, only its
vertices. -/
def solveSimplex : List SVertex → List (SVertex × ℚ)
  | [v1] => [(v1, 1)]
  | [v1, v2] => solveSimplex2 v1 v2
  | [v1, v2, v3] => solveSimplex3 v1 v2 v3
  | _ => []

/-- The input of the distance core: the two proxies' vertex lists with their
fixed transforms. -/
structure b2DistanceInputCore where
  pointsA : List b2Vec2
  pointsB : List b2Vec2
  transformA : b2Transform
  transformB : b2Transform
deriving DecidableEq

/-- Proxy A's vertex at an index, transformed into the common frame. -/
def worldA (inp : b2DistanceInputCore) (i : Nat) : b2Vec2 :=
  b2TransformPoint inp.transformA (inp.pointsA.getD i b2Vec2_zero)

/-- Proxy B's vertex at an index, transformed into the common frame. -/
def worldB (inp : b2DistanceInputCore) (i : Nat) : b2Vec2 :=
  b2TransformPoint inp.transformB (inp.pointsB.getD i b2Vec2_zero)

/-- First index of the list maximizing the dot product with the direction
(ties keep the earlier index, the deterministic tie-break). -/
def bestIndexAux (d : b2Vec2) : List b2Vec2 → Nat → Nat → ℚ → Nat
  | [], _, best, _ => best
  | p :: rest, i, best, bv =>
      if bv < b2Dot p d then bestIndexAux d rest (i + 1) i (b2Dot p d)
      else bestIndexAux d rest (i + 1) best bv

/-- Support index of a vertex list for a local-frame direction. -/
def bestIndex (pts : List b2Vec2) (d : b2Vec2) : Nat :=
  match pts with
  | [] => 0
  | p :: rest => bestIndexAux d rest 1 0 (b2Dot p d)

/-- Modelled from the spec: the support vertex of the Minkowski difference in
direction d — proxy A's farthest vertex along d and proxy B's farthest along
-d, each found in its local frame and mapped to the common frame. -/
def supportVertex (inp : b2DistanceInputCore) (d : b2Vec2) : SVertex :=
  ⟨bestIndex inp.pointsA (b2InvRotateVector inp.transformA.q d),
   bestIndex inp.pointsB (b2InvRotateVector inp.transformB.q (b2Neg d)),
   worldA inp (bestIndex inp.pointsA (b2InvRotateVector inp.transformA.q d)),
   worldB inp (bestIndex inp.pointsB (b2InvRotateVector inp.transformB.q (b2Neg d)))⟩

/-- The support vertex a solved simplex asks for: direction is the negated
closest point. -/
def supportOfSimplex (inp : b2DistanceInputCore) (ws : List (SVertex × ℚ)) : SVertex :=
  supportVertex inp (b2Neg (simplexClosest ws))

/-- The index pairs present in a solved simplex. -/
def simplexIndexPairs (ws : List (SVertex × ℚ)) : List (Nat × Nat) :=
  ws.map fun p => (p.1.indexA, p.1.indexB)

/-- Embedding of b2SimplexCache: the stored vertex index pairs (count is the
list length) and the metric used to validate the cache. -/
structure b2SimplexCache where
  indices : List (Nat × Nat)
  metric : ℚ
deriving DecidableEq

/-- The empty cache (count = 0). -/
def b2_emptySimplexCache : b2SimplexCache := ⟨[], 0⟩

/-- Writing the cache from the final solved simplex: the index pairs and the
metric (squared separation length, the spec's metric kept in ℚ). -/
def writeCache (ws : List (SVertex × ℚ)) : b2SimplexCache :=
  ⟨simplexIndexPairs ws, b2LengthSquared (simplexClosest ws)⟩

/-- Reconstructing the simplex vertices from the cached indices by
recomputing the support points from the proxies. -/
def reconstructSimplex (inp : b2DistanceInputCore) (c : b2SimplexCache) : List SVertex :=
  c.indices.map fun p => ⟨p.1, p.2, worldA inp p.1, worldB inp p.2⟩

/-- The starting vertex used when the cache is empty or rejected: support
index pair (0, 0). -/
def initialSimplexVertex (inp : b2DistanceInputCore) : SVertex :=
  ⟨0, 0, worldA inp 0, worldB inp 0⟩

/-- Modelled from the spec: read and validate the cache — an empty or
oversized cache or a metric that drifted from the recomputed one is
discarded and the iteration starts from a fresh single-vertex simplex. -/
def readCacheSimplex (inp : b2DistanceInputCore) (c : b2SimplexCache) : List SVertex :=
  if c.indices.length = 0 ∨ 3 < c.indices.length then [initialSimplexVertex inp]
  else if b2LengthSquared (simplexClosest (solveSimplex (reconstructSimplex inp c))) = c.metric
  then reconstructSimplex inp c
  else [initialSimplexVertex inp]

/-- Result of the GJK iteration: the final solved simplex, the number of
iterations used, and whether the loop terminated on its own (true) or ran
into the iteration cap (false). -/
structure GjkLoopResult where
  simplex : List (SVertex × ℚ)
  iters : Nat
  finished : Bool
deriving DecidableEq

/-- Modelled from the spec: the GJK iteration.  Each round solves the
simplex; a full 3-simplex or a zero closest point means overlap/termination;
otherwise the support vertex in the direction of the negated closest point
either is already in the simplex (no strictly closer vertex exists —
terminate) or is added for the next round.  The fuel is the iteration cap. -/
def gjkIterate (inp : b2DistanceInputCore) : Nat → List SVertex → GjkLoopResult
  | 0, s => ⟨solveSimplex s, 0, false⟩
  | fuel + 1, s =>
      if (solveSimplex s).length = 3 then ⟨solveSimplex s, 0, true⟩
      else if simplexClosest (solveSimplex s) = b2Vec2_zero then ⟨solveSimplex s, 0, true⟩
      else if ((supportOfSimplex inp (solveSimplex s)).indexA,
               (supportOfSimplex inp (solveSimplex s)).indexB)
            ∈ simplexIndexPairs (solveSimplex s) then ⟨solveSimplex s, 1, true⟩
      else
        ⟨(gjkIterate inp fuel
            (simplexVerts (solveSimplex s) ++ [supportOfSimplex inp (solveSimplex s)])).simplex,
         (gjkIterate inp fuel
            (simplexVerts (solveSimplex s) ++ [supportOfSimplex inp (solveSimplex s)])).iters + 1,
         (gjkIterate inp fuel
            (simplexVerts (solveSimplex s) ++ [supportOfSimplex inp (solveSimplex s)])).finished⟩

/-- Embedding of the default GJK iteration cap. -/
def b2_gjkIterationCap : Nat := 20

/-- The output of the distance core: witness points on both proxies, the
squared separation (distance² stays rational) and the iteration count. -/
structure b2DistanceOutputCore where
  pointA : b2Vec2
  pointB : b2Vec2
  distanceSq : ℚ
  iterations : Nat
deriving DecidableEq

/-- The distance call's full result: output, updated cache, and the
termination flag of the iteration. -/
structure GjkResult where
  output : b2DistanceOutputCore
  cache : b2SimplexCache
  finished : Bool
deriving DecidableEq

/-- Modelled from the spec: b2ShapeDistance's core — read/validate the cache,
iterate, produce witness points and the updated cache from the final solved
simplex. -/
def b2ShapeDistanceCore (inp : b2DistanceInputCore) (c : b2SimplexCache) : GjkResult :=
  ⟨⟨simplexPointA (gjkIterate inp b2_gjkIterationCap (readCacheSimplex inp c)).simplex,
    simplexPointB (gjkIterate inp b2_gjkIterationCap (readCacheSimplex inp c)).simplex,
    b2LengthSquared (simplexClosest
      (gjkIterate inp b2_gjkIterationCap (readCacheSimplex inp c)).simplex),
    (gjkIterate inp b2_gjkIterationCap (readCacheSimplex inp c)).iters⟩,
   writeCache (gjkIterate inp b2_gjkIterationCap (readCacheSimplex inp c)).simplex,
   (gjkIterate inp b2_gjkIterationCap (readCacheSimplex inp c)).finished⟩

/-! ### Lemmas about the simplex solve -/

lemma solveSimplex2_mem (v1 v2 : SVertex) (v : SVertex) (a : ℚ)
    (h : (v, a) ∈ solveSimplex2 v1 v2) : v = v1 ∨ v = v2 := by
  unfold solveSimplex2 at h
  split_ifs at h
  all_goals simp only [List.mem_cons, List.not_mem_nil, or_false, Prod.mk.injEq] at h
  all_goals
    first
      | (obtain ⟨hv, -⟩ | ⟨hv, -⟩ := h
         all_goals simp [hv])
      | (obtain ⟨hv, -⟩ := h
         simp [hv])

set_option maxHeartbeats 1000000 in
lemma solveSimplex3_mem (v1 v2 v3 : SVertex) (v : SVertex) (a : ℚ)
    (h : (v, a) ∈ solveSimplex3 v1 v2 v3) : v = v1 ∨ v = v2 ∨ v = v3 := by
  unfold solveSimplex3 at h
  split_ifs at h
  all_goals simp only [List.mem_cons, List.not_mem_nil, or_false, Prod.mk.injEq] at h
  all_goals
    first
      | (obtain ⟨hv, -⟩ | ⟨hv, -⟩ | ⟨hv, -⟩ := h
         all_goals simp [hv])
      | (obtain ⟨hv, -⟩ | ⟨hv, -⟩ := h
         all_goals simp [hv])
      | (obtain ⟨hv, -⟩ := h
         simp [hv])

lemma solveSimplex_mem (s : List SVertex) (v : SVertex) (a : ℚ)
    (h : (v, a) ∈ solveSimplex s) : v ∈ s := by
  match s with
  | [] =>
      rw [show solveSimplex [] = [] from rfl] at h
      simp at h
  | [v1] =>
      rw [show solveSimplex [v1] = [(v1, 1)] from rfl] at h
      simp [Prod.ext_iff] at h
      simp [h.1]
  | [v1, v2] =>
      rcases solveSimplex2_mem v1 v2 v a h with h1 | h1 <;> simp [h1]
  | [v1, v2, v3] =>
      rcases solveSimplex3_mem v1 v2 v3 v a h with h1 | h1 | h1 <;> simp [h1]
  | v1 :: v2 :: v3 :: v4 :: rest =>
      rw [show solveSimplex (v1 :: v2 :: v3 :: v4 :: rest) = [] from rfl] at h
      simp at h

lemma solveSimplex_shape (s : List SVertex) (h1 : s ≠ []) (h2 : s.length ≤ 3) :
    solveSimplex s ≠ [] ∧ (solveSimplex s).length ≤ s.length := by
  match s with
  | [] => exact absurd rfl h1
  | [v1] =>
      rw [show solveSimplex [v1] = [(v1, 1)] from rfl]
      exact ⟨by simp, by simp⟩
  | [v1, v2] =>
      show solveSimplex2 v1 v2 ≠ [] ∧ (solveSimplex2 v1 v2).length ≤ [v1, v2].length
      unfold solveSimplex2
      split_ifs <;> simp
  | [v1, v2, v3] =>
      show solveSimplex3 v1 v2 v3 ≠ [] ∧ (solveSimplex3 v1 v2 v3).length ≤ [v1, v2, v3].length
      unfold solveSimplex3
      split_ifs <;> simp
  | v1 :: v2 :: v3 :: v4 :: rest =>
      exfalso
      simp at h2

lemma solveSimplex2_idem (v1 v2 : SVertex) :
    solveSimplex (simplexVerts (solveSimplex2 v1 v2)) = solveSimplex2 v1 v2 := by
  unfold solveSimplex2
  split_ifs with h1 h2
  · rfl
  · rfl
  · show solveSimplex2 v1 v2 = _
    unfold solveSimplex2
    rw [if_neg h1, if_neg h2]

lemma solveSimplex3_idem (v1 v2 v3 : SVertex) :
    solveSimplex (simplexVerts (solveSimplex3 v1 v2 v3)) = solveSimplex3 v1 v2 v3 := by
  unfold solveSimplex3
  split_ifs with h1 h2 h3 h4 h5 h6
  · rfl
  · show solveSimplex2 v1 v2 = _
    unfold solveSimplex2
    rw [if_neg (not_le.mpr h2.2.1), if_neg (not_le.mpr h2.1)]
  · show solveSimplex2 v1 v3 = _
    unfold solveSimplex2
    rw [if_neg (not_le.mpr h3.2.1), if_neg (not_le.mpr h3.1)]
  · rfl
  · rfl
  · show solveSimplex2 v2 v3 = _
    unfold solveSimplex2
    rw [if_neg (not_le.mpr h6.2.1), if_neg (not_le.mpr h6.1)]
  · show solveSimplex3 v1 v2 v3 = _
    unfold solveSimplex3
    rw [if_neg h1, if_neg h2, if_neg h3, if_neg h4, if_neg h5, if_neg h6]

lemma solveSimplex_idem (s : List SVertex) :
    solveSimplex (simplexVerts (solveSimplex s)) = solveSimplex s := by
  match s with
  | [] => rfl
  | [v1] => rfl
  | [v1, v2] => exact solveSimplex2_idem v1 v2
  | [v1, v2, v3] => exact solveSimplex3_idem v1 v2 v3
  | v1 :: v2 :: v3 :: v4 :: rest => rfl

/-! ### Vertex-goodness: every simplex vertex is the recomputation of its
cached indices, so the cache can reconstruct it -/

/-- A simplex vertex is consistent with its stored support indices. -/
def goodV (inp : b2DistanceInputCore) (v : SVertex) : Prop :=
  v.wA = worldA inp v.indexA ∧ v.wB = worldB inp v.indexB

lemma supportVertex_good (inp : b2DistanceInputCore) (d : b2Vec2) :
    goodV inp (supportVertex inp d) := ⟨rfl, rfl⟩

lemma initialSimplexVertex_good (inp : b2DistanceInputCore) :
    goodV inp (initialSimplexVertex inp) := ⟨rfl, rfl⟩

lemma reconstructSimplex_good (inp : b2DistanceInputCore) (c : b2SimplexCache)
    (v : SVertex) (hv : v ∈ reconstructSimplex inp c) : goodV inp v := by
  unfold reconstructSimplex at hv
  rw [List.mem_map] at hv
  obtain ⟨p, _, hp⟩ := hv
  rw [← hp]
  exact ⟨rfl, rfl⟩

lemma readCacheSimplex_good (inp : b2DistanceInputCore) (c : b2SimplexCache)
    (v : SVertex) (hv : v ∈ readCacheSimplex inp c) : goodV inp v := by
  unfold readCacheSimplex at hv
  split_ifs at hv
  · simp at hv
    rw [hv]
    exact initialSimplexVertex_good inp
  · exact reconstructSimplex_good inp c v hv
  · simp at hv
    rw [hv]
    exact initialSimplexVertex_good inp

lemma readCacheSimplex_shape (inp : b2DistanceInputCore) (c : b2SimplexCache) :
    readCacheSimplex inp c ≠ [] ∧ (readCacheSimplex inp c).length ≤ 3 := by
  unfold readCacheSimplex
  split_ifs with h1 h2
  · simp
  · constructor
    · unfold reconstructSimplex
      rw [Ne, List.map_eq_nil_iff]
      push_neg at h1
      intro hnil
      exact h1.1 (by rw [hnil]; rfl)
    · unfold reconstructSimplex
      rw [List.length_map]
      push_neg at h1
      omega
  · simp

lemma reconstruct_writeCache (inp : b2DistanceInputCore) (ws : List (SVertex × ℚ))
    (hg : ∀ p ∈ ws, goodV inp p.1) :
    reconstructSimplex inp (writeCache ws) = simplexVerts ws := by
  unfold reconstructSimplex writeCache simplexIndexPairs simplexVerts
  rw [List.map_map]
  refine List.map_congr_left ?_
  intro p hp
  obtain ⟨hA, hB⟩ := hg p hp
  show SVertex.mk p.1.indexA p.1.indexB (worldA inp p.1.indexA) (worldB inp p.1.indexB) = p.1
  rw [← hA, ← hB]

/-! ### Lemmas about the GJK iteration -/

lemma gjkIterate_solved (inp : b2DistanceInputCore) :
    ∀ (fuel : Nat) (s : List SVertex),
      solveSimplex (simplexVerts (gjkIterate inp fuel s).simplex)
        = (gjkIterate inp fuel s).simplex := by
  intro fuel
  induction fuel with
  | zero => intro s; exact solveSimplex_idem s
  | succ fuel ih =>
      intro s
      simp only [gjkIterate]
      split_ifs
      · exact solveSimplex_idem s
      · exact solveSimplex_idem s
      · exact solveSimplex_idem s
      · exact ih _

lemma gjkIterate_good (inp : b2DistanceInputCore) :
    ∀ (fuel : Nat) (s : List SVertex), (∀ v ∈ s, goodV inp v) →
      ∀ p ∈ (gjkIterate inp fuel s).simplex, goodV inp p.1 := by
  intro fuel
  induction fuel with
  | zero =>
      intro s hs p hp
      exact hs _ (solveSimplex_mem s p.1 p.2 hp)
  | succ fuel ih =>
      intro s hs
      simp only [gjkIterate]
      split_ifs
      · intro p hp; exact hs _ (solveSimplex_mem s p.1 p.2 hp)
      · intro p hp; exact hs _ (solveSimplex_mem s p.1 p.2 hp)
      · intro p hp; exact hs _ (solveSimplex_mem s p.1 p.2 hp)
      · refine ih _ ?_
        intro v hv
        rw [List.mem_append] at hv
        rcases hv with hv | hv
        · unfold simplexVerts at hv
          rw [List.mem_map] at hv
          obtain ⟨p, hp, hpv⟩ := hv
          rw [← hpv]
          exact hs _ (solveSimplex_mem s p.1 p.2 hp)
        · simp at hv
          rw [hv]
          exact supportVertex_good inp _

lemma gjkIterate_shape (inp : b2DistanceInputCore) :
    ∀ (fuel : Nat) (s : List SVertex), s ≠ [] → s.length ≤ 3 →
      (gjkIterate inp fuel s).simplex ≠ [] ∧ (gjkIterate inp fuel s).simplex.length ≤ 3 := by
  intro fuel
  induction fuel with
  | zero =>
      intro s h1 h2
      obtain ⟨ha, hb⟩ := solveSimplex_shape s h1 h2
      exact ⟨ha, le_trans hb h2⟩
  | succ fuel ih =>
      intro s h1 h2
      simp only [gjkIterate]
      split_ifs with hc1 hc2 hc3
      · obtain ⟨ha, hb⟩ := solveSimplex_shape s h1 h2
        exact ⟨ha, le_trans hb h2⟩
      · obtain ⟨ha, hb⟩ := solveSimplex_shape s h1 h2
        exact ⟨ha, le_trans hb h2⟩
      · obtain ⟨ha, hb⟩ := solveSimplex_shape s h1 h2
        exact ⟨ha, le_trans hb h2⟩
      · obtain ⟨ha, hb⟩ := solveSimplex_shape s h1 h2
        refine ih _ (by simp) ?_
        rw [List.length_append, List.length_cons, List.length_nil]
        unfold simplexVerts
        rw [List.length_map]
        have hne3 : (solveSimplex s).length ≠ 3 := hc1
        omega

lemma gjkIterate_term_cases (inp : b2DistanceInputCore) :
    ∀ (fuel : Nat) (s : List SVertex), (gjkIterate inp fuel s).finished = true →
      ((gjkIterate inp fuel s).simplex.length = 3
        ∨ simplexClosest (gjkIterate inp fuel s).simplex = b2Vec2_zero
        ∨ ((supportOfSimplex inp (gjkIterate inp fuel s).simplex).indexA,
           (supportOfSimplex inp (gjkIterate inp fuel s).simplex).indexB)
            ∈ simplexIndexPairs (gjkIterate inp fuel s).simplex) := by
  intro fuel
  induction fuel with
  | zero =>
      intro s h
      rw [show (gjkIterate inp 0 s).finished = false from rfl] at h
      exact absurd h (by simp)
  | succ fuel ih =>
      intro s
      simp only [gjkIterate]
      split_ifs with h1 h2 h3
      · intro _; exact Or.inl h1
      · intro _; exact Or.inr (Or.inl h2)
      · intro _; exact Or.inr (Or.inr h3)
      · intro h; exact ih _ h

lemma gjkIterate_from_fixed (inp : b2DistanceInputCore) (ws : List (SVertex × ℚ))
    (fuel2 : Nat) (hfix : solveSimplex (simplexVerts ws) = ws)
    (hterm : ws.length = 3 ∨ simplexClosest ws = b2Vec2_zero
      ∨ ((supportOfSimplex inp ws).indexA, (supportOfSimplex inp ws).indexB)
          ∈ simplexIndexPairs ws) :
    ∃ m : Nat, m ≤ 1 ∧ gjkIterate inp (fuel2 + 1) (simplexVerts ws) = ⟨ws, m, true⟩ := by
  simp only [gjkIterate, hfix]
  split_ifs with h1 h2 h3
  · exact ⟨0, by omega, rfl⟩
  · exact ⟨0, by omega, rfl⟩
  · exact ⟨1, by omega, rfl⟩
  · exfalso
    rcases hterm with h | h | h
    · exact h1 h
    · exact h2 h
    · exact h3 h

lemma readCacheSimplex_eq (inp : b2DistanceInputCore) (c : b2SimplexCache)
    (hguard : ¬(c.indices.length = 0 ∨ 3 < c.indices.length))
    (hmetric : b2LengthSquared (simplexClosest (solveSimplex (reconstructSimplex inp c)))
      = c.metric) :
    readCacheSimplex inp c = reconstructSimplex inp c := by
  unfold readCacheSimplex
  rw [if_neg hguard, if_pos hmetric]

/-- C7.  Simplex cache round-trip: if a distance call terminates on its own
(it did not run into the iteration cap), then a second call with the same
input and the cache the first call wrote reproduces the first call's witness
points, squared distance and cache, terminates, and uses at most 2
iterations. -/
theorem gjk_simplex_cache_roundtrip (inp : b2DistanceInputCore) (c : b2SimplexCache)
    (hok : (b2ShapeDistanceCore inp c).finished = true) :
    (b2ShapeDistanceCore inp (b2ShapeDistanceCore inp c).cache).output.pointA
        = (b2ShapeDistanceCore inp c).output.pointA ∧
    (b2ShapeDistanceCore inp (b2ShapeDistanceCore inp c).cache).output.pointB
        = (b2ShapeDistanceCore inp c).output.pointB ∧
    (b2ShapeDistanceCore inp (b2ShapeDistanceCore inp c).cache).output.distanceSq
        = (b2ShapeDistanceCore inp c).output.distanceSq ∧
    (b2ShapeDistanceCore inp (b2ShapeDistanceCore inp c).cache).cache
        = (b2ShapeDistanceCore inp c).cache ∧
    (b2ShapeDistanceCore inp (b2ShapeDistanceCore inp c).cache).finished = true ∧
    (b2ShapeDistanceCore inp (b2ShapeDistanceCore inp c).cache).output.iterations ≤ 2 := by
  simp only [b2ShapeDistanceCore] at hok ⊢
  have hs0 := readCacheSimplex_shape inp c
  have hfix := gjkIterate_solved inp b2_gjkIterationCap (readCacheSimplex inp c)
  have hgood : ∀ p ∈ (gjkIterate inp b2_gjkIterationCap (readCacheSimplex inp c)).simplex,
      goodV inp p.1 :=
    gjkIterate_good inp _ _ (fun v hv => readCacheSimplex_good inp c v hv)
  have hshape := gjkIterate_shape inp b2_gjkIterationCap (readCacheSimplex inp c) hs0.1 hs0.2
  have hterm := gjkIterate_term_cases inp b2_gjkIterationCap (readCacheSimplex inp c) hok
  have hguard : ¬((writeCache (gjkIterate inp b2_gjkIterationCap
      (readCacheSimplex inp c)).simplex).indices.length = 0
        ∨ 3 < (writeCache (gjkIterate inp b2_gjkIterationCap
          (readCacheSimplex inp c)).simplex).indices.length) := by
    have hlen : (writeCache (gjkIterate inp b2_gjkIterationCap
        (readCacheSimplex inp c)).simplex).indices.length
        = (gjkIterate inp b2_gjkIterationCap (readCacheSimplex inp c)).simplex.length := by
      unfold writeCache simplexIndexPairs
      exact List.length_map _ _
    rw [hlen]
    push_neg
    constructor
    · intro h0
      exact hshape.1 (List.length_eq_zero.mp h0)
    · exact hshape.2
  have hmetric : b2LengthSquared (simplexClosest (solveSimplex (reconstructSimplex inp
      (writeCache (gjkIterate inp b2_gjkIterationCap (readCacheSimplex inp c)).simplex))))
      = (writeCache (gjkIterate inp b2_gjkIterationCap
          (readCacheSimplex inp c)).simplex).metric := by
    rw [reconstruct_writeCache inp _ hgood, hfix]
    rfl
  have hread : readCacheSimplex inp (writeCache (gjkIterate inp b2_gjkIterationCap
      (readCacheSimplex inp c)).simplex)
      = simplexVerts (gjkIterate inp b2_gjkIterationCap (readCacheSimplex inp c)).simplex := by
    rw [readCacheSimplex_eq inp _ hguard hmetric]
    exact reconstruct_writeCache inp _ hgood
  obtain ⟨m, hm, hiter⟩ := gjkIterate_from_fixed inp
    (gjkIterate inp b2_gjkIterationCap (readCacheSimplex inp c)).simplex 19 hfix hterm
  have hiter2 : gjkIterate inp b2_gjkIterationCap
      (simplexVerts (gjkIterate inp b2_gjkIterationCap (readCacheSimplex inp c)).simplex)
      = ⟨(gjkIterate inp b2_gjkIterationCap (readCacheSimplex inp c)).simplex, m, true⟩ := hiter
  rw [hread, hiter2]
  refine ⟨rfl, rfl, rfl, rfl, rfl, ?_⟩
  show m ≤ 2
  omega

/-- C7 witness: the cache round-trip at two concrete one-point proxies. -/
theorem gjk_simplex_cache_roundtrip_witness :
    (b2ShapeDistanceCore
        ⟨[⟨0, 0⟩], [⟨2, 0⟩], ⟨b2Rot_identity, b2Vec2_zero⟩, ⟨b2Rot_identity, b2Vec2_zero⟩⟩
        b2_emptySimplexCache).finished = true ∧
    (b2ShapeDistanceCore
        ⟨[⟨0, 0⟩], [⟨2, 0⟩], ⟨b2Rot_identity, b2Vec2_zero⟩, ⟨b2Rot_identity, b2Vec2_zero⟩⟩
        (b2ShapeDistanceCore
          ⟨[⟨0, 0⟩], [⟨2, 0⟩], ⟨b2Rot_identity, b2Vec2_zero⟩, ⟨b2Rot_identity, b2Vec2_zero⟩⟩
          b2_emptySimplexCache).cache).output.distanceSq
      = (b2ShapeDistanceCore
          ⟨[⟨0, 0⟩], [⟨2, 0⟩], ⟨b2Rot_identity, b2Vec2_zero⟩, ⟨b2Rot_identity, b2Vec2_zero⟩⟩
          b2_emptySimplexCache).output.distanceSq ∧
    (b2ShapeDistanceCore
        ⟨[⟨0, 0⟩], [⟨2, 0⟩], ⟨b2Rot_identity, b2Vec2_zero⟩, ⟨b2Rot_identity, b2Vec2_zero⟩⟩
        (b2ShapeDistanceCore
          ⟨[⟨0, 0⟩], [⟨2, 0⟩], ⟨b2Rot_identity, b2Vec2_zero⟩, ⟨b2Rot_identity, b2Vec2_zero⟩⟩
          b2_emptySimplexCache).cache).output.iterations ≤ 2 := by
  refine ⟨by with_unfolding_all decide, ?_, ?_⟩
  · exact (gjk_simplex_cache_roundtrip
      ⟨[⟨0, 0⟩], [⟨2, 0⟩], ⟨b2Rot_identity, b2Vec2_zero⟩, ⟨b2Rot_identity, b2Vec2_zero⟩⟩
      b2_emptySimplexCache (by with_unfolding_all decide)).2.2.1
  · exact (gjk_simplex_cache_roundtrip
      ⟨[⟨0, 0⟩], [⟨2, 0⟩], ⟨b2Rot_identity, b2Vec2_zero⟩, ⟨b2Rot_identity, b2Vec2_zero⟩⟩
      b2_emptySimplexCache (by with_unfolding_all decide)).2.2.2.2.2

/-! ## C6: shape cast (conservative advancement)

The cast routine is not in src; types.h documents its callback contract (a
cast with initial overlap reports fraction 0) and §4.2 of the spec gives the
algorithm, which is modelled here on top of the distance core.  Distance
comparisons stay squared; the square root needed only for the advancement
step size is a parameter (the C library sqrtf), and the reported normal is
the unnormalized separation direction pointB - pointA of the distance call
(the zero vector under initial overlap, matching the types.h comment). -/

/-- The input of the shape-cast pair call: two proxies (core points plus
radius), their transforms, the translation of B, the fraction cap and the
tolerance. -/
structure b2ShapeCastPairInput where
  pointsA : List b2Vec2
  pointsB : List b2Vec2
  radiusA : ℚ
  radiusB : ℚ
  transformA : b2Transform
  transformB : b2Transform
  translationB : b2Vec2
  maxFraction : ℚ
  tolerance : ℚ
deriving DecidableEq

/-- Embedding of b2CastOutput. -/
structure b2CastOutput where
  hit : Bool
  point : b2Vec2
  normal : b2Vec2
  fraction : ℚ
  iterations : Nat
deriving DecidableEq

/-- Proxy B's transform once it has advanced by fraction t of the
translation. -/
def castProxyBTransform (inp : b2ShapeCastPairInput) (t : ℚ) : b2Transform :=
  ⟨inp.transformB.q, b2MulAdd inp.transformB.p t inp.translationB⟩

/-- The distance-core input at fraction t of the cast. -/
def castDistanceInput (inp : b2ShapeCastPairInput) (t : ℚ) : b2DistanceInputCore :=
  ⟨inp.pointsA, inp.pointsB, inp.transformA, castProxyBTransform inp t⟩

/-- Modelled from the spec: the conservative-advancement loop (§4.2).  At
each fraction t compute the core distance; within radiusA + radiusB +
tolerance report a hit at t with the normal from the distance call; otherwise
advance by the fraction that closes the gap along the separation normal,
Δt = (distance - target)·distance / (-n·translation) for the unnormalized n,
giving up when B does not approach or the fraction would pass maxFraction.
The fuel is the iteration cap. -/
def b2ShapeCastLoop (sqrtQ : ℚ → ℚ) (inp : b2ShapeCastPairInput) :
    Nat → ℚ → b2SimplexCache → Nat → b2CastOutput
  | 0, _, _, iter => ⟨false, b2Vec2_zero, b2Vec2_zero, inp.maxFraction, iter⟩
  | fuel + 1, t, cache, iter =>
      let r := b2ShapeDistanceCore (castDistanceInput inp t) cache
      if r.output.distanceSq ≤ (inp.radiusA + inp.radiusB + inp.tolerance) ^ 2 then
        ⟨true, r.output.pointA, b2Sub r.output.pointB r.output.pointA, t, iter⟩
      else
        let n := b2Sub r.output.pointB r.output.pointA
        if -(b2Dot n inp.translationB) ≤ 0 then
          ⟨false, b2Vec2_zero, b2Vec2_zero, inp.maxFraction, iter + 1⟩
        else
          let dist := sqrtQ r.output.distanceSq
          let tNew := t + (dist - (inp.radiusA + inp.radiusB)) * dist
            / (-(b2Dot n inp.translationB))
          if inp.maxFraction < tNew then
            ⟨false, b2Vec2_zero, b2Vec2_zero, inp.maxFraction, iter + 1⟩
          else
            b2ShapeCastLoop sqrtQ inp fuel tNew r.cache (iter + 1)

/-- Modelled from the spec: the shape-cast entry point — run the advancement
loop from fraction 0 with an empty simplex cache. -/
def b2ShapeCastModel (sqrtQ : ℚ → ℚ) (inp : b2ShapeCastPairInput) : b2CastOutput :=
  b2ShapeCastLoop sqrtQ inp b2_gjkIterationCap 0 b2_emptySimplexCache 0

/-- C6.  A shape cast whose two proxies are already within radiusA + radiusB
+ tolerance at t = 0 (stated with squares: the squared core distance at
fraction 0 is at most the squared bound, the bound being nonnegative) reports
a hit with fraction 0, and its normal and witness point are the ones obtained
from the distance call at t = 0. -/
theorem shapecast_initial_proximity (sqrtQ : ℚ → ℚ) (inp : b2ShapeCastPairInput)
    (htol : 0 ≤ inp.radiusA + inp.radiusB + inp.tolerance)
    (hd : (b2ShapeDistanceCore (castDistanceInput inp 0) b2_emptySimplexCache).output.distanceSq
      ≤ (inp.radiusA + inp.radiusB + inp.tolerance) ^ 2) :
    (b2ShapeCastModel sqrtQ inp).hit = true ∧
    (b2ShapeCastModel sqrtQ inp).fraction = 0 ∧
    (b2ShapeCastModel sqrtQ inp).normal
      = b2Sub (b2ShapeDistanceCore (castDistanceInput inp 0) b2_emptySimplexCache).output.pointB
          (b2ShapeDistanceCore (castDistanceInput inp 0) b2_emptySimplexCache).output.pointA ∧
    (b2ShapeCastModel sqrtQ inp).point
      = (b2ShapeDistanceCore (castDistanceInput inp 0) b2_emptySimplexCache).output.pointA := by
  unfold b2ShapeCastModel
  rw [show (b2_gjkIterationCap : Nat) = 19 + 1 from rfl]
  simp only [b2ShapeCastLoop]
  rw [if_pos hd]
  exact ⟨rfl, rfl, rfl, rfl⟩

/-- C6 witness: two overlapping one-point round proxies report a hit at
fraction 0. -/
theorem shapecast_initial_proximity_witness :
    (0 : ℚ) ≤ 1 + 1 + 0 ∧
    (b2ShapeCastModel (fun x => x)
        ⟨[⟨0, 0⟩], [⟨1, 0⟩], 1, 1, ⟨b2Rot_identity, b2Vec2_zero⟩, ⟨b2Rot_identity, b2Vec2_zero⟩,
          ⟨1, 0⟩, 1, 0⟩).hit = true ∧
    (b2ShapeCastModel (fun x => x)
        ⟨[⟨0, 0⟩], [⟨1, 0⟩], 1, 1, ⟨b2Rot_identity, b2Vec2_zero⟩, ⟨b2Rot_identity, b2Vec2_zero⟩,
          ⟨1, 0⟩, 1, 0⟩).fraction = 0 := by
  have h := shapecast_initial_proximity (fun x => x)
    ⟨[⟨0, 0⟩], [⟨1, 0⟩], 1, 1, ⟨b2Rot_identity, b2Vec2_zero⟩, ⟨b2Rot_identity, b2Vec2_zero⟩,
      ⟨1, 0⟩, 1, 0⟩
    (by norm_num) (by with_unfolding_all decide)
  exact ⟨by norm_num, h.1, h.2.1⟩

end Box2d
